import Mathlib

/-!
# Verification of the open-weather data-engineering pipelines

A shallow embedding, in Lean 4, of the three AWS-Lambda pipelines of the
repository (`Ingestion.py`, `Forecast.py`, `Current_Weather.py`) together
with proofs of the behavioural claims made by the specification.

Modelling conventions:
* The S3 blob store is an explicit state value (a list of objects, each
  carrying a key, a last-modified stamp and parsed content) plus two fault
  sets used to inject the exceptions that `try/except` blocks in the source
  are written to catch.  Machine effects (puts/deletes) are also recorded in
  an explicit event trace.
* JSON documents are embedded structurally: each Python `dict` access that
  the source performs becomes a field of a Lean structure.  Numeric payload
  values (temperatures, wind speed, ...) are modelled as `Int`; the source
  never computes with them, it only copies and serialises them.
* The wall clock (`datetime.now()`) is an explicit parameter: each handler
  receives the date string and the timestamp strings that its successive
  clock reads produce.
* Python exceptions are `Except String` values; a `try/except` block is a
  `match` on that value.
-/

/-! ## Small string helpers (Python `in`, `str.split()`, `str.replace`) -/

/-- `listStartsWith pre l` : `pre` is an initial segment of `l`. -/
def listStartsWith : List Char → List Char → Bool
  | [], _ => true
  | _ :: _, [] => false
  | p :: ps, c :: cs => p = c && listStartsWith ps cs

/-- `listHasInfix needle hay` : `needle` occurs contiguously inside `hay`
(Python's `needle in hay` on strings). -/
def listHasInfix (needle : List Char) : List Char → Bool
  | [] => listStartsWith needle []
  | c :: cs => listStartsWith needle (c :: cs) || listHasInfix needle cs

/-- Python's substring test `needle in hay`. -/
def strHasInfix (hay needle : String) : Bool :=
  listHasInfix needle.data hay.data

/-- `strStartsWith pre s` : `s` begins with `pre` (used to model S3
list-by-key-prefix). -/
def strStartsWith (pre s : String) : Bool :=
  listStartsWith pre.data s.data

/-- Python's `str.lower()`, character by character (the location names in
play are ASCII, where `Char.toLower` and Python agree). -/
def pyLower (s : String) : String :=
  String.mk (s.data.map Char.toLower)

/-- Python's `str.replace(" ", "_")`: the pattern is a single character, so
the call is a character-wise map. -/
def replaceSpaces (s : String) : String :=
  String.mk (s.data.map (fun c => if c = ' ' then '_' else c))

/-- Split a character list on runs of whitespace, dropping empty pieces —
Python's no-argument `str.split()`. -/
def wsSplitAux : List Char → List Char → List (List Char)
  | [], acc => if acc = [] then [] else [acc.reverse]
  | c :: cs, acc =>
    if c.isWhitespace then
      if acc = [] then wsSplitAux cs [] else acc.reverse :: wsSplitAux cs []
    else wsSplitAux cs (c :: acc)

/-- Python's `str.split()` (split on whitespace runs, no empty fields). -/
def pySplitWs (s : String) : List String :=
  (wsSplitAux s.data []).map String.mk

/-! ## Python `dict` as an association list

A Python `dict` keeps the position of the *first* insertion of a key and the
value of the *last* one.  `dictInsert` implements exactly that, and
`dictLookup` / `dictGet` model `d[k]` / `d.get(k, default)`. -/

/-- Insert into a Python-`dict`-like association list: if the key is
present, overwrite the value in place; otherwise append at the end. -/
def dictInsert (k : String) (v : α) : List (String × α) → List (String × α)
  | [] => [(k, v)]
  | (k', v') :: rest =>
    if k' = k then (k, v) :: rest else (k', v') :: dictInsert k v rest

/-- First-match lookup (keys of a Python dict are unique, so first match is
the only match). -/
def dictLookup (k : String) : List (String × α) → Option α
  | [] => none
  | (k', v) :: rest => if k' = k then some v else dictLookup k rest

/-- Build a dict from a list of key/value pairs, later pairs overwriting
earlier ones — the semantics of a Python dict comprehension. -/
def dictOfPairs (l : List (String × α)) : List (String × α) :=
  l.foldl (fun d kv => dictInsert kv.1 kv.2 d) []

/-! ## Data model: the JSON documents the source reads and writes -/

/-- `condition` object (only `text` is read). -/
structure WCondition where
  text : String
deriving DecidableEq, Repr

/-- `current` object of a raw per-city API document. -/
structure WCurrent where
  temp_c : Int
  feelslike_c : Int
  condition : WCondition
  wind_kph : Int
  vis_km : Int
  uv : Int
deriving DecidableEq, Repr

/-- `location` object of a raw per-city API document. -/
structure WLocation where
  name : String
  region : String
  country : String
  lat : Int
  lon : Int
  tz_id : String
  localtime : String
deriving DecidableEq, Repr

/-- One entry of a forecast-day's `hour` array. -/
structure WHour where
  time : String
  temp_c : Int
deriving DecidableEq, Repr

/-- The `day` object of a forecast-day. -/
structure WDay where
  maxtemp_c : Int
  mintemp_c : Int
  avgtemp_c : Int
  totalprecip_mm : Int
  daily_chance_of_rain : Int
  condition : WCondition
  maxwind_kph : Int
  avghumidity : Int
  uv : Int
deriving DecidableEq, Repr

/-- One element of `forecast.forecastday`. -/
structure WForecastDay where
  date : String
  day : WDay
  hour : List WHour
deriving DecidableEq, Repr

/-- A raw per-city document as returned by the weather API: the fields the
source code reads.  `forecastday` is the `city_data['forecast']['forecastday']`
array. -/
structure RawCityDoc where
  location : WLocation
  current : WCurrent
  forecastday : List WForecastDay
deriving DecidableEq, Repr

/-! ## City-key normalisation (`Forecast.get_city_name`) -/

/-- `EXPECTED_CITIES` from `Forecast.py`. -/
def EXPECTED_CITIES : List String :=
  ["perth", "melbourne", "sydney", "brisbane", "adelaide"]

/-- `Forecast.get_city_name`: lower-case the location name, return the first
expected city that occurs inside it, else the lower-cased name with spaces
replaced by underscores. -/
def get_city_name (city_data : RawCityDoc) : String :=
  let name := pyLower city_data.location.name
  match EXPECTED_CITIES.find? (fun expected => strHasInfix name expected) with
  | some expected => expected
  | none => replaceSpaces name

/-- Modelled from the spec: "Lower-cases the source-provided location name;
returns the first configured city name that is a substring match; otherwise
returns the lower-cased name with spaces replaced by underscores." -/
def normalizeSpec (rawName : String) : String :=
  let lowered := pyLower rawName
  match EXPECTED_CITIES.find? (fun city => strHasInfix lowered city) with
  | some city => city
  | none => replaceSpaces lowered

/-- A raw document whose only relevant part is its location name. -/
def docNamed (n : String) : RawCityDoc :=
  { location := { name := n, region := "", country := "", lat := 0, lon := 0,
                  tz_id := "", localtime := "" }
    current := { temp_c := 0, feelslike_c := 0, condition := { text := "" },
                 wind_kph := 0, vis_km := 0, uv := 0 }
    forecastday := [] }

/-! ## Alert documents and the two alert-rendering joins -/

/-- One alert record; only `description` is read (`a.get('description','')`). -/
structure AlertRec where
  description : Option String
deriving DecidableEq, Repr

/-- The `alerts` object of an alert document; `alert` may be absent. -/
structure AlertsField where
  alert : Option (List AlertRec)
deriving DecidableEq, Repr

/-- One value of the alert dictionary read by `Current_Weather.py`; the
`alerts` key may be absent. -/
structure AlertEntry where
  alerts : Option AlertsField
deriving DecidableEq, Repr

/-- `str(city_alerts)`: Python's rendering of the raw alert list.  The model
retains only the field the pipelines read, so the rendering covers that
field. -/
def pyStrAlerts (l : List AlertRec) : String :=
  "[" ++ String.intercalate ", " (l.map (fun a =>
    "\x7b'description': " ++ (match a.description with
      | some d => "'" ++ d ++ "'"
      | none => "None") ++ "\x7d")) ++ "]"

/-- `Current_Weather.lambda_handler`, lines 97–99: the rendered alerts field
for one city.  `alert_dict.get(city_name, \x7b\x7d).get('alerts', \x7b\x7d).get('alert', [])`
followed by `"No alerts" if not city_alerts else str(city_alerts)`. -/
def alertsTextCW (alert_dict : List (String × AlertEntry)) (city_name : String) : String :=
  let city_alerts := (((dictLookup city_name alert_dict).getD ⟨none⟩).alerts.getD ⟨none⟩).alert.getD []
  if city_alerts = [] then "No alerts" else pyStrAlerts city_alerts

/-- One element of the alert list built by `Ingestion.lambda_handler`: either
a fetched alert document (an object with an optional `location.name` and an
optional `alerts` object) or the `\x7b'city': ..., 'error': ...\x7d` placeholder
appended when fetching a city's alerts raised. -/
inductive IngAlertItem where
  | fetched (locationName : Option String) (alerts : Option AlertsField)
  | failed (city : String) (errText : String)
deriving DecidableEq, Repr

/-- `alert.get('location', \x7b\x7d).get('name')`: the placeholder has no
`location` key, so it yields `None`. -/
def IngAlertItem.locName : IngAlertItem → Option String
  | .fetched n _ => n
  | .failed _ _ => none

/-- `alert['alerts']` guarded by `'alerts' in alert`. -/
def IngAlertItem.alertsObj : IngAlertItem → Option AlertsField
  | .fetched _ a => a
  | .failed _ _ => none

/-- `Ingestion.lambda_handler`, lines 118–125: the rendered alerts text for
one city.  The loop scans `alert_data` for the first entry whose
`location.name` equals the city name and breaks there; if that entry has an
`alerts` key the text becomes the pipe-joined descriptions, or `"No alerts"`
when the `alert` list is absent or empty. -/
def alertsTextIng (alert_data : List IngAlertItem) (city_name : String) : String :=
  match alert_data.find? (fun a => a.locName = some city_name) with
  | none => "No alerts"
  | some a =>
    match a.alertsObj with
    | none => "No alerts"
    | some f =>
      let alerts := f.alert.getD []
      if alerts = [] then "No alerts"
      else String.intercalate " | " (alerts.map (fun r => r.description.getD ""))

/-! ## `json.dumps` of the hourly-temperature mapping, and a JSON decoder

`convert_to_csv` serialises each day's hourly-temperature dict with
`json.dumps`, whose default output for a string→number dict is
`{"k": v, "k": v}` with separators `", "` and `": "`.  The decoder below is a
verified inverse for that output format (strings escaped with `\"` and
`\\`; Python additionally escapes control and non-ASCII characters, which the
round-trip theorem therefore excludes from its key alphabet). -/

/-- Decimal digits of `n`, most significant first; structural in the fuel so
that concrete evaluation reduces in the kernel. -/
def renderNatAux : Nat → Nat → List Char
  | 0, _ => []
  | fuel + 1, n => if n = 0 then [] else renderNatAux fuel (n / 10) ++ [Char.ofNat (48 + n % 10)]

/-- Python `str` of a natural number. -/
def renderNatChars (n : Nat) : List Char :=
  if n = 0 then ['0'] else renderNatAux n n

/-- Python `str` of an integer (what `json.dumps` emits for the value). -/
def renderIntChars (i : Int) : List Char :=
  if i < 0 then '-' :: renderNatChars i.natAbs else renderNatChars i.toNat

/-- `str(i)` as a `String`. -/
def intStr (i : Int) : String :=
  String.mk (renderIntChars i)

/-- JSON string escaping of one character (quote and backslash). -/
def escChar (c : Char) : List Char :=
  if c = '"' ∨ c = '\\' then ['\\', c] else [c]

/-- JSON encoding of an object key: quoted, characters escaped. -/
def encodeKeyChars (s : String) : List Char :=
  '"' :: (s.data.map escChar).flatten ++ ['"']

/-- One `"key": value` pair, with `json.dumps`'s default `": "` separator. -/
def renderPairChars (kv : String × Int) : List Char :=
  encodeKeyChars kv.1 ++ ':' :: ' ' :: renderIntChars kv.2

/-- Pairs joined with `", "` and closed with the final brace. -/
def renderBody : List (String × Int) → List Char
  | [] => ['\x7d']
  | [kv] => renderPairChars kv ++ ['\x7d']
  | kv :: rest => renderPairChars kv ++ ',' :: ' ' :: renderBody rest

/-- `json.dumps` of a string→int dict with the default separators. -/
def jsonDumpsMap (m : List (String × Int)) : String :=
  String.mk ('\x7b' :: renderBody m)

/-- Decode a JSON string body (after the opening quote): returns the decoded
characters and the input remaining after the closing quote. -/
def parseStr : List Char → Option (List Char × List Char)
  | [] => none
  | c :: rest =>
    if c = '"' then some ([], rest)
    else if c = '\\' then
      match rest with
      | [] => none
      | e :: rest2 =>
        if e = '"' ∨ e = '\\' then
          match parseStr rest2 with
          | some (s, r) => some (e :: s, r)
          | none => none
        else none
    else
      match parseStr rest with
      | some (s, r) => some (c :: s, r)
      | none => none

/-- Consume a maximal run of decimal digits, accumulating their value. -/
def parseDigits : List Char → Nat → Nat × List Char
  | [], acc => (acc, [])
  | c :: rest, acc =>
    if c.isDigit then parseDigits rest (acc * 10 + (c.toNat - 48)) else (acc, c :: rest)

/-- Decode an optionally signed decimal integer (at least one digit). -/
def parseIntChars : List Char → Option (Int × List Char)
  | [] => none
  | c :: rest =>
    if c = '-' then
      match rest with
      | [] => none
      | d :: _ =>
        if d.isDigit then
          let p := parseDigits rest 0
          some (-(p.1 : Int), p.2)
        else none
    else if c.isDigit then
      let p := parseDigits (c :: rest) 0
      some ((p.1 : Int), p.2)
    else none

/-- Decode the pair list of a non-empty JSON object body (everything after
the opening brace), fuelled by the input length. -/
def parsePairsF : Nat → List Char → Option (List (String × Int))
  | 0, _ => none
  | fuel + 1, l =>
    match l with
    | '"' :: rest =>
      match parseStr rest with
      | none => none
      | some (k, r1) =>
        match r1 with
        | ':' :: ' ' :: r2 =>
          match parseIntChars r2 with
          | none => none
          | some (v, r3) =>
            match r3 with
            | ',' :: ' ' :: r4 =>
              match parsePairsF fuel r4 with
              | some l' => some ((String.mk k, v) :: l')
              | none => none
            | ['\x7d'] => some [(String.mk k, v)]
            | _ => none
        | _ => none
    | _ => none

/-- JSON decoding of a string→int object in `json.dumps`'s output format. -/
def parseJsonMap (s : String) : Option (List (String × Int)) :=
  match s.data with
  | ['\x7b', '\x7d'] => some []
  | '\x7b' :: rest => parsePairsF rest.length rest
  | _ => none

/-! ## The forecast reshaper (`Forecast.process_city_forecast`) -/

/-- The `daily_summary` record built for each forecast-day. -/
structure DailySummary where
  max_temp_c : Int
  min_temp_c : Int
  avg_temp_c : Int
  total_precip_mm : Int
  chance_of_rain : Int
  condition : String
  max_wind_kph : Int
  avg_humidity : Int
  uv_index : Int
deriving DecidableEq, Repr

/-- One element of `forecast_days` in the processed document. -/
structure FcDay where
  date : String
  daily_summary : DailySummary
  hourly_temperatures : List (String × Int)
deriving DecidableEq, Repr

/-- The `location` object of the processed document. -/
structure FcLocation where
  name : String
  region : String
  country : String
  lat : Int
  lon : Int
  tz_id : String
deriving DecidableEq, Repr

/-- The document `process_city_forecast` returns. -/
structure ProcessedForecast where
  location : FcLocation
  forecast_days : List FcDay
  last_processed : String
deriving DecidableEq, Repr

/-- The inner hourly loop: `hourly_temps[hour['time'].split()[1]] = hour['temp_c']`.
Python raises `IndexError` when the time string has no second
whitespace-separated token; the error aborts the whole reshaping. -/
def hourlyTempsAux : List WHour → List (String × Int) → Except String (List (String × Int))
  | [], acc => .ok acc
  | h :: rest, acc =>
    match (pySplitWs h.time).get? 1 with
    | none => .error "IndexError: list index out of range"
    | some t => hourlyTempsAux rest (dictInsert t h.temp_c acc)

/-- One forecast-day of the reshaper: daily summary plus hourly map. -/
def processDay (fd : WForecastDay) : Except String FcDay :=
  match hourlyTempsAux fd.hour [] with
  | .error e => .error e
  | .ok temps => .ok
    { date := fd.date
      daily_summary :=
        { max_temp_c := fd.day.maxtemp_c
          min_temp_c := fd.day.mintemp_c
          avg_temp_c := fd.day.avgtemp_c
          total_precip_mm := fd.day.totalprecip_mm
          chance_of_rain := fd.day.daily_chance_of_rain
          condition := fd.day.condition.text
          max_wind_kph := fd.day.maxwind_kph
          avg_humidity := fd.day.avghumidity
          uv_index := fd.day.uv }
      hourly_temperatures := temps }

/-- `Forecast.process_city_forecast`.  `city_name` is a parameter of the
source function but is not used by its body; `nowIso` is the value of the
`datetime.now().isoformat()` clock read. -/
def process_city_forecast (nowIso : String) (city_name : String) (city_data : RawCityDoc) :
    Except String ProcessedForecast :=
  match city_data.forecastday.mapM processDay with
  | .error e => .error e
  | .ok days => .ok
    { location :=
        { name := city_data.location.name
          region := city_data.location.region
          country := city_data.location.country
          lat := city_data.location.lat
          lon := city_data.location.lon
          tz_id := city_data.location.tz_id }
      forecast_days := days
      last_processed := nowIso }

/-! ## CSV projection (`Forecast.convert_to_csv`) -/

/-- A CSV field needs quoting when it holds the delimiter, the quote
character or a line break (`csv.writer`'s minimal quoting). -/
def csvNeedsQuote (s : String) : Bool :=
  s.data.any (fun c => c = ',' ∨ c = '"' ∨ c = '\x0d' ∨ c = '\n')

/-- Quote a CSV field, doubling embedded quote characters. -/
def csvQuote (s : String) : String :=
  "\"" ++ String.mk ((s.data.map (fun c => if c = '"' then ['"', '"'] else [c])).flatten) ++ "\""

/-- Serialise one CSV field (`csv.writer`, minimal quoting). -/
def csvField (s : String) : String :=
  if csvNeedsQuote s then csvQuote s else s

/-- Serialise rows the way `csv.writer` does: comma-joined fields, `\r\n`
row terminator. -/
def csvRender (rows : List (List String)) : String :=
  String.join (rows.map (fun r => String.intercalate "," (r.map csvField) ++ "\x0d\n"))

/-- The header row of the forecast CSV. -/
def forecastHeader : List String :=
  ["Date", "Max Temp (C)", "Min Temp (C)", "Avg Temp (C)",
   "Total Precip (mm)", "Chance of Rain", "Condition",
   "Max Wind (kph)", "Avg Humidity", "UV Index",
   "Hourly Temperatures (JSON)"]

/-- One data row of the forecast CSV; the last cell is the `json.dumps` of
the day's hourly-temperature mapping. -/
def forecastRow (day : FcDay) : List String :=
  [day.date,
   intStr day.daily_summary.max_temp_c,
   intStr day.daily_summary.min_temp_c,
   intStr day.daily_summary.avg_temp_c,
   intStr day.daily_summary.total_precip_mm,
   intStr day.daily_summary.chance_of_rain,
   day.daily_summary.condition,
   intStr day.daily_summary.max_wind_kph,
   intStr day.daily_summary.avg_humidity,
   intStr day.daily_summary.uv_index,
   jsonDumpsMap day.hourly_temperatures]

/-- The rows `convert_to_csv` writes into the forecast CSV, in writing
order: the header first, then one row per forecast-day. -/
def forecastRows (data : ProcessedForecast) : List (List String) :=
  forecastHeader :: data.forecast_days.map forecastRow

/-- The rows of the location CSV: a header row and a single data row. -/
def locationRows (data : ProcessedForecast) : List (List String) :=
  [["Location", "Region", "Country", "Latitude", "Longitude", "Time Zone"],
   [data.location.name, data.location.region, data.location.country,
    intStr data.location.lat, intStr data.location.lon, data.location.tz_id]]

/-- The pair of CSV documents returned by `convert_to_csv`. -/
structure CsvOut where
  location : String
  forecast : String
deriving DecidableEq, Repr

/-- `Forecast.convert_to_csv`. -/
def convert_to_csv (data : ProcessedForecast) : CsvOut :=
  { location := csvRender (locationRows data)
    forecast := csvRender (forecastRows data) }

/-! ## The blob store, its fault model, and the Retention Manager -/

/-- The current-weather record flattened by the ingestion join (one per
city).  The field set is the source's `current_element` dict; names carry the
same meaning (`Current_temp_C` is the `Current_temp_(C)` column, and so
on). -/
structure CWRecord where
  City : String
  State : String
  Local_time : String
  Current_temp_C : Int
  Feels_like_C : Int
  Current_Weather : String
  Latitude : Int
  Longitude : Int
  Wind_kph : Int
  Visibility_km : Int
  UV_index : Int
  Alerts : String
deriving DecidableEq, Repr

/-- Parsed content of a stored object: the JSON shapes the pipelines write
and read, plus plain text for CSV bodies.  (Feeding a non-forecast shape to
the forecast transform is a fatal shape error in the source — a `ValueError`
or a failing key access, both of which end in the 500 envelope — and is
modelled as the `ValueError` branch.) -/
inductive Content where
  | jsonList (docs : List RawCityDoc)
  | jsonDict (entries : List (String × RawCityDoc))
  | ingAlerts (items : List IngAlertItem)
  | cwList (records : List CWRecord)
  | processedFc (doc : ProcessedForecast)
  | text (body : String)
deriving DecidableEq, Repr

/-- A stored object: key, store-assigned last-modified stamp, parsed body. -/
structure S3Obj where
  key : String
  lastModified : Nat
  content : Content
deriving DecidableEq, Repr

/-- The blob store.  `clock` is the store-assigned last-modified counter
(each put stamps the object and advances it, so later puts are newer).
`listFails` and `deleteFails` inject the transient faults that the source's
`try/except` blocks catch: listing a prefix in `listFails` raises, deleting
a key in `deleteFails` raises. -/
structure S3 where
  objects : List S3Obj
  clock : Nat
  listFails : List String
  deleteFails : List String
deriving DecidableEq, Repr

/-- One store effect, for the event trace. -/
inductive Ev where
  | put (key : String)
  | del (key : String)
deriving DecidableEq, Repr

/-- Code-point order on key strings (S3 lists keys in ascending UTF-8 byte
order; the keys of this system are ASCII, where byte order and code-point
order agree). -/
def charListLE : List Char → List Char → Bool
  | [], _ => true
  | _ :: _, [] => false
  | a :: as, b :: bs =>
    if a.toNat < b.toNat then true
    else if b.toNat < a.toNat then false
    else charListLE as bs

/-- The objects stored under a key prefix (unordered view of the store). -/
def underPrefix (st : S3) (pfx : String) : List S3Obj :=
  st.objects.filter (fun o => strStartsWith pfx o.key)

/-- `s3.list_objects_v2(...).get('Contents', [])`: the objects under the
prefix, listed in ascending key order as S3 does. -/
def listPrefix (st : S3) (pfx : String) : Except String (List S3Obj) :=
  if pfx ∈ st.listFails then .error "list_objects_v2 failed"
  else .ok (List.insertionSort (fun a b => charListLE a.key.data b.key.data = true) (underPrefix st pfx))

/-- `s3.delete_object`: removes the key (or raises, for injected faults). -/
def delObj (st : S3) (k : String) : Except String S3 :=
  if k ∈ st.deleteFails then .error "delete_object failed"
  else .ok { st with objects := st.objects.filter (fun o => o.key ≠ k) }

/-- `s3.put_object`: overwrite the key and stamp it with the store clock. -/
def putObj (st : S3) (k : String) (c : Content) : S3 :=
  { st with
    objects := st.objects.filter (fun o => o.key ≠ k) ++
      [{ key := k, lastModified := st.clock, content := c }]
    clock := st.clock + 1 }

/-- `s3.get_object` followed by `json.loads` of the body. -/
def getObj (st : S3) (k : String) : Except String Content :=
  match st.objects.find? (fun o => o.key = k) with
  | some o => .ok o.content
  | none => .error "NoSuchKey"

/-- `sorted(objects, key=lambda x: x['LastModified'], reverse=True)`:
Python's sort is stable, and `reverse=True` keeps the listing order of
entries whose stamps tie, which `insertionSort` with `≥` reproduces. -/
def sortDescLM (l : List S3Obj) : List S3Obj :=
  List.insertionSort (fun a b => b.lastModified ≤ a.lastModified) l

/-- The deletion loop of `delete_old_versions`: delete each object in turn;
an exception stops the loop there and the enclosing `except` turns the whole
call into `0` (deletions already performed stay done). -/
def dovLoop : List S3Obj → S3 → Nat → List Ev → Nat × S3 × List Ev
  | [], st, n, tr => (n, st, tr)
  | o :: rest, st, n, tr =>
    match delObj st o.key with
    | .error _ => (0, st, tr)
    | .ok st' => dovLoop rest st' (n + 1) (tr ++ [Ev.del o.key])

/-- `delete_old_versions(bucket, prefix, keep_latest=True)`, identical in the
three source files: list the prefix (a failure is caught and yields 0), keep
the newest object, delete the rest, return the number deleted. -/
def delete_old_versions (st : S3) (pfx : String) (keep_latest : Bool := true) :
    Nat × S3 × List Ev :=
  match listPrefix st pfx with
  | .error _ => (0, st, [])
  | .ok objects =>
    if objects.isEmpty then (0, st, [])
    else if keep_latest then dovLoop (sortDescLM objects).tail st 0 []
    else (0, st, [])

/-- Python's `max(files, key=lambda x: x['LastModified'])`: the first entry
with the greatest stamp. -/
def pyMaxLM (l : List S3Obj) : Option S3Obj :=
  l.foldl (fun acc o =>
    match acc with
    | none => some o
    | some m => if m.lastModified < o.lastModified then some o else some m) none

/-! ## The ingestion pipeline (`Ingestion.lambda_handler`) -/

/-- `CITIES` from `Ingestion.py`. -/
def CITIES : List String :=
  ["Perth", "Melbourne", "Sydney", "Brisbane", "Adelaide"]

/-- `BUCKET`, common to the three files. -/
def BUCKET : String := "weather-data-opem-weather-api"

/-- `Ingestion.save_to_s3`: build the key from the prefix, the file type and
the timestamp this call's `datetime.now()` read produced, then put the
body. -/
def save_to_s3 (st : S3) (pfx ts : String) (c : Content) (file_type : String) :
    String × S3 × List Ev :=
  let key := pfx ++ file_type ++ "_data_" ++ ts ++ "." ++ file_type
  (key, putObj st key c, [Ev.put key])

/-- The flattened record the ingestion join builds for one fetched city
document (lines 104–135 of `Ingestion.py`). -/
def ingRecord (alert_data : List IngAlertItem) (d : RawCityDoc) : CWRecord :=
  { City := d.location.name
    State := d.location.region
    Local_time := d.location.localtime
    Current_temp_C := d.current.temp_c
    Feels_like_C := d.current.feelslike_c
    Current_Weather := d.current.condition.text
    Latitude := d.location.lat
    Longitude := d.location.lon
    Wind_kph := d.current.wind_kph
    Visibility_km := d.current.vis_km
    UV_index := d.current.uv
    Alerts := alertsTextIng alert_data d.location.name }

/-- The 200 body of the ingestion pipeline: object locations and cleanup
counts. -/
structure IngBody where
  json_loc : String
  csv_loc : String
  forecast_loc : String
  alert_loc : String
  deleted_forecast_files : Nat
  deleted_alert_files : Nat
  deleted_processed_files : Nat
deriving DecidableEq, Repr

/-- The envelope the ingestion handler returns. -/
inductive IngResp where
  | ok (body : IngBody)
  | err (errText : String)
deriving DecidableEq, Repr

/-- `statusCode` of the ingestion envelope. -/
def IngResp.statusCode : IngResp → Nat
  | .ok _ => 200
  | .err _ => 500

/-- Simple model of `pd.DataFrame(current_list).to_csv(index=False)`: a
fixed header and one minimally-quoted line per record. -/
def pandasCsvCW (rows : List CWRecord) : String :=
  "City,State,Local_time,Current_temp_(C),Feels_like_(C),Current_Weather," ++
  "Latitude,Longitude,Wind_kph,Visibility_(km),UV_index,Alerts\n" ++
  String.join (rows.map (fun r =>
    String.intercalate ","
      ([r.City, r.State, r.Local_time, intStr r.Current_temp_C,
        intStr r.Feels_like_C, r.Current_Weather, intStr r.Latitude,
        intStr r.Longitude, intStr r.Wind_kph, intStr r.Visibility_km,
        intStr r.UV_index, r.Alerts].map csvField) ++ "\n"))

/-- The alert list the ingestion handler builds (lines 91–98 of
`Ingestion.py`): one entry per city, the fetched document on success and the
`\x7b'city': ..., 'error': ...\x7d` placeholder when the fetch raised. -/
def ingAlertData (fetchA : String → Except String (Option String × Option AlertsField)) :
    List IngAlertItem :=
  CITIES.map (fun city =>
    match fetchA city with
    | .ok (locName, af) => IngAlertItem.fetched locName af
    | .error e => IngAlertItem.failed city e)

/-- `Ingestion.lambda_handler`.  `fetchF`/`fetchA` are the
`get_weather_data(city, 'forecast')` / `get_weather_data(city, 'alerts')`
oracles (a Python exception is the `error` case); `today` is the
`%Y-%m-%d` clock read and `tss` the successive `%Y%m%d_%H%M%S` reads
performed inside the four `save_to_s3` calls.  A forecast-fetch failure
reaches the top-level `except` before anything was written; alert-fetch
failures are replaced by placeholder records in the loop. -/
def ingestion_handler (fetchF : String → Except String RawCityDoc)
    (fetchA : String → Except String (Option String × Option AlertsField))
    (today : String) (tss : List String) (st : S3) : IngResp × S3 × List Ev :=
  match CITIES.mapM fetchF with
  | .error e => (.err e, st, [])
  | .ok forecast_data =>
    let forecast_pfx := "to_be_processed/forecast/" ++ today ++ "/"
    let (forecast_key, st1, tr1) :=
      save_to_s3 st forecast_pfx (tss.getD 0 "") (.jsonList forecast_data) "json"
    let alert_data := ingAlertData fetchA
    let alert_pfx := "to_be_processed/alert/" ++ today ++ "/"
    let (alert_key, st2, tr2) :=
      save_to_s3 st1 alert_pfx (tss.getD 1 "") (.ingAlerts alert_data) "json"
    let current_list := forecast_data.map (ingRecord alert_data)
    let processed_pfx := "processed/current_weather/" ++ today ++ "/"
    let (json_key, st3, tr3) :=
      save_to_s3 st2 processed_pfx (tss.getD 2 "") (.cwList current_list) "json"
    let (csv_key, st4, tr4) :=
      save_to_s3 st3 processed_pfx (tss.getD 3 "") (.text (pandasCsvCW current_list)) "csv"
    let (delF, st5, tr5) := delete_old_versions st4 forecast_pfx
    let (delA, st6, tr6) := delete_old_versions st5 alert_pfx
    let (delP, st7, tr7) := delete_old_versions st6 processed_pfx
    (.ok { json_loc := "s3://" ++ BUCKET ++ "/" ++ json_key
           csv_loc := "s3://" ++ BUCKET ++ "/" ++ csv_key
           forecast_loc := "s3://" ++ BUCKET ++ "/" ++ forecast_key
           alert_loc := "s3://" ++ BUCKET ++ "/" ++ alert_key
           deleted_forecast_files := delF
           deleted_alert_files := delA
           deleted_processed_files := delP },
     st7, tr1 ++ tr2 ++ tr3 ++ tr4 ++ tr5 ++ tr6 ++ tr7)

/-! ## The forecast transform pipeline (`Forecast.lambda_handler`) -/

/-- The envelope the forecast handler returns (the fields of its 200 body,
or the 404 / 500 messages). -/
inductive FcResp where
  | ok (processed_cities : List String) (files_created : Nat)
       (files_deleted : Nat) (processing_date : String)
  | notFound (msg : String)
  | err (errText : String)
deriving DecidableEq, Repr

/-- `statusCode` of the forecast envelope. -/
def FcResp.statusCode : FcResp → Nat
  | .ok .. => 200
  | .notFound _ => 404
  | .err _ => 500

/-- Loop state of the per-city processing loop: the store, the effect trace,
`processed_cities` and `files_created` so far. -/
structure FcAcc where
  st : S3
  tr : List Ev
  cities : List String
  files : Nat
deriving Repr

/-- One iteration of the per-city loop (lines 171–211 of `Forecast.py`):
reshape, put the JSON and the two CSVs under
`processed/{city}_forecast/{date}/`, then prune that prefix.  A reshaping
exception happens before this iteration has written anything. -/
def fcCityStep (today ts nowIso : String) (acc : FcAcc) (city_name : String)
    (city_data : RawCityDoc) : Except String FcAcc :=
  match process_city_forecast nowIso city_name city_data with
  | .error e => .error e
  | .ok processed_data =>
    let pfx := "processed/" ++ city_name ++ "_forecast/" ++ today ++ "/"
    let json_key := pfx ++ "forecast_" ++ ts ++ ".json"
    let st1 := putObj acc.st json_key (.processedFc processed_data)
    let csv_data := convert_to_csv processed_data
    let loc_key := pfx ++ "location_" ++ ts ++ ".csv"
    let st2 := putObj st1 loc_key (.text csv_data.location)
    let fc_key := pfx ++ "forecast_" ++ ts ++ ".csv"
    let st3 := putObj st2 fc_key (.text csv_data.forecast)
    let (_, st4, dtr) := delete_old_versions st3 pfx
    .ok { st := st4
          tr := acc.tr ++ [Ev.put json_key, Ev.put loc_key, Ev.put fc_key] ++ dtr
          cities := acc.cities ++ [city_name]
          files := acc.files + 3 }

/-- The per-city loop.  An exception aborts the loop; writes of earlier
iterations persist and reach the top-level `except`. -/
def fcLoop (today ts nowIso : String) :
    List (String × RawCityDoc) → FcAcc → Option String × FcAcc
  | [], acc => (none, acc)
  | (city, data) :: rest, acc =>
    match fcCityStep today ts nowIso acc city data with
    | .error e => (some e, acc)
    | .ok acc' => fcLoop today ts nowIso rest acc'

/-- The tail of the forecast handler once the re-keyed city dict is in hand:
the per-city loop, the prune of the raw prefix, and the 200 body. -/
def fcMain (today ts nowIso : String) (st : S3)
    (forecast_data : List (String × RawCityDoc)) : FcResp × S3 × List Ev :=
  match fcLoop today ts nowIso forecast_data { st := st, tr := [], cities := [], files := 0 } with
  | (some e, acc) => (.err e, acc.st, acc.tr)
  | (none, acc) =>
    let raw_pfx := "to_be_processed/forecast/" ++ today ++ "/"
    let (deleted_raw, st', dtr) := delete_old_versions acc.st raw_pfx
    (.ok acc.cities acc.files deleted_raw today, st', acc.tr ++ dtr)

/-- `Forecast.lambda_handler`.  `today` is the `%Y-%m-%d` clock read, `ts`
the single `%Y%m%d_%H%M%S` read taken before the loop, `nowIso` the
`isoformat()` read inside `process_city_forecast`.  An empty listing of the
raw prefix returns the 404 envelope before any write or delete; the latest
raw object is re-keyed by `get_city_name` (a list input and a dict input
both collapse to one dict), and any other stored shape is the fatal
`ValueError` of line 164. -/
def forecast_handler (today ts nowIso : String) (st : S3) : FcResp × S3 × List Ev :=
  let pfx := "to_be_processed/forecast/" ++ today ++ "/"
  match listPrefix st pfx with
  | .error e => (.err e, st, [])
  | .ok forecast_files =>
    if forecast_files.isEmpty then
      (.notFound ("No forecast files found for date " ++ today), st, [])
    else
      match pyMaxLM forecast_files with
      | none => (.err "max() arg is an empty sequence", st, [])
      | some latest =>
        match getObj st latest.key with
        | .error e => (.err e, st, [])
        | .ok (.jsonList docs) =>
          fcMain today ts nowIso st (dictOfPairs (docs.map (fun d => (get_city_name d, d))))
        | .ok (.jsonDict entries) =>
          fcMain today ts nowIso st
            (dictOfPairs (entries.map (fun kv => (get_city_name kv.2, kv.2))))
        | .ok _ => (.err "Unexpected forecast data format", st, [])

/-! ## Helpers for the timestamp claims -/

/-- The keys of the put events of a trace, in order. -/
def putKeys (tr : List Ev) : List String :=
  tr.filterMap (fun e => match e with | .put k => some k | .del _ => none)

/-- `k` embeds the run timestamp `ts` in the source's filename shape
`..._{ts}.{ext}`: some stem, an underscore, the timestamp, the extension
dot, some extension. -/
def embedsTs (k ts : String) : Prop :=
  ∃ a b : List Char, k.data = a ++ '_' :: (ts.data ++ '.' :: b)

/-- The `YYYYMMDD_HHMMSS` component of an output filename: the last 15
characters before the extension dot (the timestamps of this system are
exactly 15 characters, `8 + 1 + 6`). -/
def tsComponent (k : String) : String :=
  String.mk (((k.data.takeWhile (fun c => c ≠ '.')).reverse.take 15).reverse)

/-! ## Concrete instances used by witnesses and counterexamples -/

/-- A store object with the given key and stamp, body irrelevant. -/
def exObj (k : String) (lm : Nat) : S3Obj :=
  { key := k, lastModified := lm, content := .text "" }

/-- Two objects under `p/` with the same (maximal) last-modified stamp. -/
def exTieStore : S3 :=
  { objects := [exObj "p/a" 5, exObj "p/b" 5], clock := 9, listFails := [], deleteFails := [] }

/-- Three objects under `p/` with pairwise-distinct stamps. -/
def exDistinctStore : S3 :=
  { objects := [exObj "p/a" 5, exObj "p/b" 7, exObj "p/c" 6], clock := 9,
    listFails := [], deleteFails := [] }

/-- A store with nothing in it. -/
def emptyStore : S3 :=
  { objects := [], clock := 0, listFails := [], deleteFails := [] }

/-- A store whose only listing of `p/` raises. -/
def exListFailStore : S3 :=
  { objects := [exObj "p/a" 5, exObj "p/b" 7], clock := 9,
    listFails := ["p/"], deleteFails := [] }

/-- A store where deleting `p/a` raises. -/
def exDelFailStore : S3 :=
  { objects := [exObj "p/a" 5, exObj "p/b" 7], clock := 9,
    listFails := [], deleteFails := ["p/a"] }

/-- A forecast-fetch oracle that always succeeds with a fixed document. -/
def exFetchF : String → Except String RawCityDoc :=
  fun n => .ok (docNamed n)

/-- An alert-fetch oracle that always succeeds with an empty alert object. -/
def exFetchA : String → Except String (Option String × Option AlertsField) :=
  fun _ => .ok (none, none)

/-- An alert-fetch oracle that raises for Sydney only. -/
def exFetchASydneyDown : String → Except String (Option String × Option AlertsField) :=
  fun c => if c = "Sydney" then .error "timeout" else .ok (some (pyLower c), some ⟨some []⟩)

/-- A forecast-fetch oracle that raises for Melbourne. -/
def exFetchFMelbourneDown : String → Except String RawCityDoc :=
  fun c => if c = "Melbourne" then .error "connection reset" else .ok (docNamed c)

/-- The ingestion run used by the shared-timestamp counterexample: the
clock advances between the four `save_to_s3` calls. -/
def exTickingRun : IngResp × S3 × List Ev :=
  ingestion_handler exFetchF exFetchA "2025-01-01"
    ["20250101_000001", "20250101_000002", "20250101_000003", "20250101_000004"]
    emptyStore

/-- A store holding one raw forecast object for the day. -/
def exFcStore : S3 :=
  { objects := [{ key := "to_be_processed/forecast/2025-01-01/json_data_X.json",
                  lastModified := 1, content := .jsonList [docNamed "Perth"] }],
    clock := 5, listFails := [], deleteFails := [] }

/-- An ingestion run whose four save-time clock reads coincide. -/
def exConstRun : IngResp × S3 × List Ev :=
  ingestion_handler exFetchF exFetchA "2025-01-01"
    ["20250101_000001", "20250101_000001", "20250101_000001", "20250101_000001"]
    emptyStore

/-- The next character, if any, is not a digit — where greedy number
decoding stops. -/
def noDigitHead : List Char → Prop
  | [] => True
  | c :: _ => c.isDigit = false

/-- A sample day payload. -/
def exWDay : WDay :=
  { maxtemp_c := 31, mintemp_c := 18, avgtemp_c := 24, totalprecip_mm := 0,
    daily_chance_of_rain := 10, condition := { text := "Sunny" },
    maxwind_kph := 20, avghumidity := 40, uv := 7 }

/-- A raw document with one forecast-day of two hours. -/
def exRawFc : RawCityDoc :=
  { docNamed "Perth" with
    forecastday := [{ date := "2025-01-01", day := exWDay,
                      hour := [{ time := "2025-01-01 00:00", temp_c := 12 },
                               { time := "2025-01-01 01:00", temp_c := -3 }] }] }

/-- The document `process_city_forecast` produces from `exRawFc`. -/
def exDocFc : ProcessedForecast :=
  { location := { name := "Perth", region := "", country := "", lat := 0, lon := 0,
                  tz_id := "" }
    forecast_days := [{ date := "2025-01-01",
                        daily_summary :=
                          { max_temp_c := 31, min_temp_c := 18, avg_temp_c := 24,
                            total_precip_mm := 0, chance_of_rain := 10,
                            condition := "Sunny", max_wind_kph := 20,
                            avg_humidity := 40, uv_index := 7 }
                        hourly_temperatures := [("00:00", 12), ("01:00", -3)] }]
    last_processed := "NOW" }

/-- Case split on what follows one decoded pair: a separator and more
pairs, or the closing brace (stated as a definition so proofs can rewrite
with it). -/
def pairsTailCase (kv : String × Int) (fuel : Nat) (tail : List Char) :
    Option (List (String × Int)) :=
  match tail with
  | ',' :: ' ' :: r4 =>
    (match parsePairsF fuel r4 with
     | some l => some (kv :: l)
     | none => none)
  | '\x7d' :: [] => some [kv]
  | _ => none

/-! # Theorems -/

/-! ## Dictionary lemmas -/

theorem dictLookup_dictInsert (k k' : String) (v : α) (d : List (String × α)) :
    dictLookup k (dictInsert k' v d) = if k' = k then some v else dictLookup k d := by
  induction d with
  | nil => simp [dictInsert, dictLookup]
  | cons kv rest ih =>
    obtain ⟨k0, v0⟩ := kv
    by_cases h0 : k0 = k'
    · subst h0
      by_cases h1 : k0 = k <;> simp [dictInsert, dictLookup, h1]
    · by_cases h1 : k0 = k
      · subst h1
        simp [dictInsert, dictLookup, h0, Ne.symm h0, ih]
      · simp [dictInsert, dictLookup, h0, h1, ih]

theorem dictLookup_foldl (l : List (String × α)) (d : List (String × α)) (k : String) :
    dictLookup k (l.foldl (fun d kv => dictInsert kv.1 kv.2 d) d) =
      match (l.filter (fun kv => kv.1 = k)).getLast? with
      | some kv => some kv.2
      | none => dictLookup k d := by
  induction l using List.reverseRecOn generalizing d with
  | nil => simp
  | append_singleton l kv ih =>
    rw [List.foldl_append, List.filter_append]
    simp only [List.foldl_cons, List.foldl_nil]
    rw [dictLookup_dictInsert]
    by_cases h : kv.1 = k
    · simp [h, List.getLast?_concat]
    · simp only [List.filter_cons, List.filter_nil, decide_eq_true_eq, h,
        if_false, ite_false, List.append_nil, if_neg h]
      exact ih d

theorem dictLookup_dictOfPairs (l : List (String × α)) (k : String) :
    dictLookup k (dictOfPairs l) =
      ((l.filter (fun kv => kv.1 = k)).getLast?).map Prod.snd := by
  rw [dictOfPairs, dictLookup_foldl]
  cases (l.filter (fun kv => kv.1 = k)).getLast? <;> simp [dictLookup]

/-! ## C3 — city normalization -/

/-- C3: for every input document, `get_city_name` lower-cases the document's
location name and returns the first configured city (in the order perth,
melbourne, sydney, brisbane, adelaide) that occurs as a substring of it; if
none occurs, it returns the lower-cased name with every space replaced by an
underscore (`normalizeSpec` is that specification, word for word).  In
particular `"Perth Airport"` normalizes to `"perth"` and `"Unknown Town"` to
`"unknown_town"`. -/
theorem get_city_name_correct :
    (∀ d : RawCityDoc, get_city_name d = normalizeSpec d.location.name) ∧
    EXPECTED_CITIES = ["perth", "melbourne", "sydney", "brisbane", "adelaide"] ∧
    get_city_name (docNamed "Perth Airport") = "perth" ∧
    get_city_name (docNamed "Unknown Town") = "unknown_town" :=
  ⟨fun _ => rfl, rfl, by decide, by decide⟩

/-! ## C10 — re-keying collapses documents that normalize alike -/

/-- C10: the forecast transform re-keys its parsed input (list or mapping)
solely by `get_city_name` of each document — original mapping keys are
discarded — and a Python dict comprehension keeps, for every key, exactly
the value of the *last* document mapping to it; so the re-keyed dict can be
strictly smaller than the input (shown at a concrete two-document input that
both normalize to `"perth"`). -/
theorem rekey_collapse :
    (∀ (docs : List RawCityDoc) (k : String),
       dictLookup k (dictOfPairs (docs.map (fun d => (get_city_name d, d)))) =
         (docs.filter (fun d => get_city_name d = k)).getLast?) ∧
    (∀ (entries : List (String × RawCityDoc)) (k : String),
       dictLookup k (dictOfPairs (entries.map (fun kv => (get_city_name kv.2, kv.2)))) =
         ((entries.map Prod.snd).filter (fun d => get_city_name d = k)).getLast?) ∧
    (dictOfPairs (([docNamed "Perth", docNamed "Perth City"]).map
        (fun d => (get_city_name d, d)))).length = 1 ∧
    ([docNamed "Perth", docNamed "Perth City"] : List RawCityDoc).length = 2 ∧
    dictLookup "perth" (dictOfPairs (([docNamed "Perth", docNamed "Perth City"]).map
        (fun d => (get_city_name d, d)))) = some (docNamed "Perth City") := by
  have hmain : ∀ (docs : List RawCityDoc) (k : String),
      dictLookup k (dictOfPairs (docs.map (fun d => (get_city_name d, d)))) =
        (docs.filter (fun d => get_city_name d = k)).getLast? := by
    intro docs k
    rw [dictLookup_dictOfPairs]
    rw [List.filter_map]
    rw [List.getLast?_map]
    have hcomp : ((fun kv : String × RawCityDoc => decide (kv.1 = k)) ∘
        (fun d : RawCityDoc => (get_city_name d, d))) =
        (fun d : RawCityDoc => decide (get_city_name d = k)) := rfl
    rw [hcomp]
    cases (docs.filter (fun d => decide (get_city_name d = k))).getLast? <;> rfl
  refine ⟨hmain, ?_, by decide, by decide, by decide⟩
  intro entries k
  have : entries.map (fun kv => (get_city_name kv.2, kv.2)) =
      (entries.map Prod.snd).map (fun d => (get_city_name d, d)) := by
    rw [List.map_map]
    rfl
  rw [this, hmain]

/-! ## C4 — the "No alerts" default in both joins -/

/-- C4: in both joined current-weather records, a city with no entry in the
alert document, or whose entry's `alerts.alert` list is absent or empty,
renders as the literal string `"No alerts"` (first conjunct: the
`Current_Weather.py` join; second: the `Ingestion.py` join). -/
theorem no_alerts_default :
    (∀ (alert_dict : List (String × AlertEntry)) (city : String),
       (dictLookup city alert_dict = none ∨
        (∃ e, dictLookup city alert_dict = some e ∧
          (e.alerts = none ∨ e.alerts = some ⟨none⟩ ∨ e.alerts = some ⟨some []⟩))) →
       alertsTextCW alert_dict city = "No alerts") ∧
    (∀ (alert_data : List IngAlertItem) (city : String),
       (alert_data.find? (fun a => a.locName = some city) = none ∨
        (∃ a, alert_data.find? (fun a => a.locName = some city) = some a ∧
          (a.alertsObj = none ∨ a.alertsObj = some ⟨none⟩ ∨ a.alertsObj = some ⟨some []⟩))) →
       alertsTextIng alert_data city = "No alerts") := by
  constructor
  · intro ad city h
    rcases h with h | ⟨e, he, ha⟩
    · simp [alertsTextCW, h]
    · rcases ha with ha | ha | ha <;> simp [alertsTextCW, he, ha]
  · intro items city h
    rcases h with h | ⟨a, hfind, ha⟩
    · simp [alertsTextIng, h]
    · rcases ha with ha | ha | ha <;> simp [alertsTextIng, hfind, ha]

/-- Witness for C4 at concrete inputs: a city absent from the
`Current_Weather` alert dict, and a city whose `Ingestion` alert entry has an
empty `alert` list, both render as `"No alerts"`. -/
theorem no_alerts_default_witness :
    alertsTextCW [] "perth" = "No alerts" ∧
    alertsTextIng [IngAlertItem.fetched (some "Perth") (some ⟨some []⟩)] "Perth" = "No alerts" :=
  ⟨no_alerts_default.1 [] "perth" (Or.inl rfl),
   no_alerts_default.2 [IngAlertItem.fetched (some "Perth") (some ⟨some []⟩)] "Perth"
     (Or.inr ⟨IngAlertItem.fetched (some "Perth") (some ⟨some []⟩), by decide,
       Or.inr (Or.inr rfl)⟩)⟩

/-! ## Retention-manager lemmas -/

instance : IsTotal S3Obj (fun a b => b.lastModified ≤ a.lastModified) :=
  ⟨fun a b => le_total b.lastModified a.lastModified⟩

instance : IsTrans S3Obj (fun a b => b.lastModified ≤ a.lastModified) :=
  ⟨fun _ _ _ h1 h2 => le_trans h2 h1⟩

theorem sortDescLM_perm (l : List S3Obj) : List.Perm (sortDescLM l) l :=
  List.perm_insertionSort _ l

theorem sortDescLM_sorted (l : List S3Obj) :
    (sortDescLM l).Sorted (fun a b => b.lastModified ≤ a.lastModified) :=
  List.sorted_insertionSort _ l

/-- The listing a fault-free `list_objects_v2` returns is a permutation of
the objects under the prefix. -/
theorem listing_perm (st : S3) (pfx : String) :
    List.Perm (List.insertionSort (fun a b : S3Obj => charListLE a.key.data b.key.data = true) (underPrefix st pfx))
      (underPrefix st pfx) :=
  List.perm_insertionSort _ _

theorem dovLoop_noFail (l : List S3Obj) (st : S3) (n : Nat) (tr : List Ev)
    (h : st.deleteFails = []) :
    dovLoop l st n tr =
      (n + l.length,
       { st with objects := st.objects.filter (fun o => o.key ∉ l.map S3Obj.key) },
       tr ++ l.map (fun o => Ev.del o.key)) := by
  induction l generalizing st n tr with
  | nil =>
    have hf : st.objects.filter
        (fun o => o.key ∉ (([] : List S3Obj).map S3Obj.key)) = st.objects :=
      List.filter_eq_self.mpr (by simp)
    simp [dovLoop, hf]
  | cons o rest ih =>
    have hdel : delObj st o.key =
        .ok { st with objects := st.objects.filter (fun x => x.key ≠ o.key) } := by
      simp [delObj, h]
    have hstep : dovLoop (o :: rest) st n tr =
        dovLoop rest { st with objects := st.objects.filter (fun x => x.key ≠ o.key) }
          (n + 1) (tr ++ [Ev.del o.key]) := by
      simp [dovLoop, hdel]
    rw [hstep, ih _ (n + 1) _ (by simp [h])]
    have e2 : (st.objects.filter (fun x => x.key ≠ o.key)).filter
        (fun x => x.key ∉ rest.map S3Obj.key) =
        st.objects.filter (fun x => x.key ∉ (o :: rest).map S3Obj.key) := by
      rw [List.filter_filter]
      exact List.filter_congr fun x _ => by
        simp [List.mem_cons, not_or, Bool.and_comm]
    simp only [Prod.mk.injEq, S3.mk.injEq]
    refine ⟨?_, ?_, ?_⟩
    · simp only [List.length_cons]
      omega
    · exact ⟨e2, trivial, trivial, trivial⟩
    · simp [List.map_cons]

/-- Fault-free pruning of an empty prefix returns 0 and changes nothing. -/
theorem dov_empty (st : S3) (pfx : String) (hl : pfx ∉ st.listFails)
    (hemp : underPrefix st pfx = []) :
    delete_old_versions st pfx = (0, st, []) := by
  simp [delete_old_versions, listPrefix, hl, hemp]

/-- Fault-free pruning of a single-object prefix returns 0 and changes
nothing. -/
theorem dov_singleton (st : S3) (pfx : String) (o : S3Obj) (hl : pfx ∉ st.listFails)
    (hone : underPrefix st pfx = [o]) :
    delete_old_versions st pfx = (0, st, []) := by
  simp [delete_old_versions, listPrefix, hl, hone, List.insertionSort, List.orderedInsert,
    sortDescLM, dovLoop]

/-- Fault-free pruning of a non-empty prefix, described through the head and
tail of the stamp-descending sort of the listing. -/
theorem dov_noFail (st : S3) (pfx : String) (hl : pfx ∉ st.listFails)
    (hd : st.deleteFails = []) (hne : underPrefix st pfx ≠ []) :
    ∃ m t,
      sortDescLM (List.insertionSort (fun a b : S3Obj => charListLE a.key.data b.key.data = true)
        (underPrefix st pfx)) = m :: t ∧
      List.Perm (m :: t) (underPrefix st pfx) ∧
      delete_old_versions st pfx =
        (t.length,
         { st with objects := st.objects.filter (fun o => o.key ∉ t.map S3Obj.key) },
         t.map (fun o => Ev.del o.key)) := by
  have hperm : List.Perm (sortDescLM (List.insertionSort
      (fun a b : S3Obj => charListLE a.key.data b.key.data = true) (underPrefix st pfx))) (underPrefix st pfx) :=
    (sortDescLM_perm _).trans (listing_perm st pfx)
  obtain ⟨m, t, hmt⟩ : ∃ m t, sortDescLM (List.insertionSort
      (fun a b : S3Obj => charListLE a.key.data b.key.data = true) (underPrefix st pfx)) = m :: t := by
    cases hsort : sortDescLM (List.insertionSort
        (fun a b : S3Obj => charListLE a.key.data b.key.data = true) (underPrefix st pfx)) with
    | nil =>
      rw [hsort] at hperm
      exact absurd (hperm.nil_eq.symm) hne
    | cons m t => exact ⟨m, t, rfl⟩
  refine ⟨m, t, hmt, hmt ▸ hperm, ?_⟩
  have hlist_ne : ¬(List.insertionSort (fun a b : S3Obj => charListLE a.key.data b.key.data = true)
      (underPrefix st pfx)).isEmpty = true := by
    rw [List.isEmpty_iff]
    intro hnil
    have := (listing_perm st pfx)
    rw [hnil] at this
    exact hne this.nil_eq.symm
  simp only [delete_old_versions, listPrefix, if_neg hl, hlist_ne, if_false,
    Bool.false_eq_true, hmt, List.tail_cons]
  rw [dovLoop_noFail t st 0 [] hd]
  simp

theorem retention_correct (st : S3) (pfx : String)
    (hl : pfx ∉ st.listFails) (hd : st.deleteFails = [])
    (hkeys : (underPrefix st pfx).Pairwise (fun a b => a.key ≠ b.key))
    (hlm : (underPrefix st pfx).Pairwise (fun a b => a.lastModified ≠ b.lastModified)) :
    (underPrefix st pfx = [] → delete_old_versions st pfx = (0, st, [])) ∧
    (underPrefix st pfx ≠ [] →
      ∃ m, m ∈ underPrefix st pfx ∧
        (∀ x ∈ underPrefix st pfx, x.lastModified ≤ m.lastModified) ∧
        (delete_old_versions st pfx).1 = (underPrefix st pfx).length - 1 ∧
        underPrefix (delete_old_versions st pfx).2.1 pfx = [m] ∧
        List.Perm (delete_old_versions st pfx).2.2
          (((underPrefix st pfx).filter
            (fun x => x.lastModified ≠ m.lastModified)).map (fun o => Ev.del o.key))) := by
  refine ⟨fun hemp => dov_empty st pfx hl hemp, fun hne => ?_⟩
  obtain ⟨m, t, hmt, hperm, hdov⟩ := dov_noFail st pfx hl hd hne
  have hsorted := sortDescLM_sorted
    (List.insertionSort (fun a b : S3Obj => charListLE a.key.data b.key.data = true) (underPrefix st pfx))
  rw [hmt] at hsorted
  have hmax_t : ∀ x ∈ t, x.lastModified ≤ m.lastModified :=
    fun x hx => List.rel_of_sorted_cons hsorted x hx
  have hkeys' := (List.Perm.pairwise_iff (fun h => Ne.symm h) hperm).mpr hkeys
  have hlm' := (List.Perm.pairwise_iff (fun h => Ne.symm h) hperm).mpr hlm
  rw [List.pairwise_cons] at hkeys' hlm'
  have hm_notin : m.key ∉ t.map S3Obj.key := by
    intro hmem
    obtain ⟨x, hx, hkey⟩ := List.mem_map.mp hmem
    exact hkeys'.1 x hx hkey.symm
  have hm_mem : m ∈ underPrefix st pfx := hperm.subset (List.mem_cons_self m t)
  refine ⟨m, hm_mem, ?_, ?_, ?_, ?_⟩
  · intro x hx
    rcases List.mem_cons.mp (hperm.symm.subset hx) with rfl | hxt
    · exact le_refl _
    · exact hmax_t x hxt
  · rw [hdov]
    have hlen := hperm.length_eq
    simp only [List.length_cons] at hlen
    simp only []
    omega
  · rw [hdov]
    have hswap : (st.objects.filter (fun o => o.key ∉ t.map S3Obj.key)).filter
        (fun o => strStartsWith pfx o.key) =
        (underPrefix st pfx).filter (fun o => o.key ∉ t.map S3Obj.key) := by
      rw [underPrefix, List.filter_filter, List.filter_filter]
      exact List.filter_congr fun x _ => by rw [Bool.and_comm]
    have hgoal : underPrefix (delete_old_versions st pfx).2.1 pfx =
        (underPrefix st pfx).filter (fun o => o.key ∉ t.map S3Obj.key) := by
      rw [hdov]
      exact hswap
    rw [← hdov, hgoal]
    have hfiltt : t.filter (fun o => decide (o.key ∉ t.map S3Obj.key)) = [] := by
      refine List.filter_eq_nil_iff.mpr fun x hx => ?_
      simp only [decide_eq_true_eq, Decidable.not_not]
      exact List.mem_map.mpr ⟨x, hx, rfl⟩
    have hcons : (m :: t).filter (fun o => decide (o.key ∉ t.map S3Obj.key)) = [m] := by
      rw [List.filter_cons]
      simp only [hm_notin, decide_eq_true_eq, if_true, hfiltt]
      simp [hm_notin]
    have hpf := (hperm.symm).filter (fun o => decide (o.key ∉ t.map S3Obj.key))
    rw [hcons] at hpf
    exact List.perm_singleton.mp hpf
  · rw [hdov]
    have hmf : (decide (m.lastModified ≠ m.lastModified)) = false := by simp
    have hself : t.filter (fun x => decide (x.lastModified ≠ m.lastModified)) = t := by
      refine List.filter_eq_self.mpr fun x hx => ?_
      simp only [decide_eq_true_eq]
      exact Ne.symm (hlm'.1 x hx)
    have hcons : (m :: t).filter (fun x => decide (x.lastModified ≠ m.lastModified)) = t := by
      rw [List.filter_cons]
      simp [hmf, hself]
      exact fun a ha heq => hlm'.1 a ha heq.symm
    have hpf := (hperm.symm).filter (fun x => decide (x.lastModified ≠ m.lastModified))
    rw [hcons] at hpf
    exact (hpf.symm).map _

/-- Pruning a prefix restricted the stored objects by key; listing afterwards
is the old listing minus those keys. -/
theorem underPrefix_filterState (st : S3) (K : List String) (pfx : String) :
    underPrefix { st with objects := st.objects.filter (fun o => o.key ∉ K) } pfx =
      (underPrefix st pfx).filter (fun o => o.key ∉ K) := by
  rw [underPrefix, underPrefix, List.filter_filter, List.filter_filter]
  exact List.filter_congr fun x _ => by rw [Bool.and_comm]

theorem reprune_noop (st : S3) (pfx : String)
    (hl : pfx ∉ st.listFails) (hd : st.deleteFails = []) :
    (∀ o : S3Obj, underPrefix st pfx = [o] → delete_old_versions st pfx = (0, st, [])) ∧
    delete_old_versions (delete_old_versions st pfx).2.1 pfx =
      (0, (delete_old_versions st pfx).2.1, []) := by
  refine ⟨fun o hone => dov_singleton st pfx o hl hone, ?_⟩
  by_cases hemp : underPrefix st pfx = []
  · rw [dov_empty st pfx hl hemp]
    exact dov_empty st pfx hl hemp
  · obtain ⟨m, t, hmt, hperm, hdov⟩ := dov_noFail st pfx hl hd hemp
    have hl1 : pfx ∉ (delete_old_versions st pfx).2.1.listFails := by
      rw [hdov]
      exact hl
    have hup : underPrefix (delete_old_versions st pfx).2.1 pfx =
        (underPrefix st pfx).filter (fun o => o.key ∉ t.map S3Obj.key) := by
      rw [hdov]
      exact underPrefix_filterState st (t.map S3Obj.key) pfx
    have hfiltt : t.filter (fun o => decide (o.key ∉ t.map S3Obj.key)) = [] := by
      refine List.filter_eq_nil_iff.mpr fun x hx => ?_
      simp only [decide_eq_true_eq, Decidable.not_not]
      exact List.mem_map.mpr ⟨x, hx, rfl⟩
    have hpf := (hperm.symm).filter (fun o => decide (o.key ∉ t.map S3Obj.key))
    by_cases hmk : m.key ∈ t.map S3Obj.key
    · have hcons : (m :: t).filter (fun o => decide (o.key ∉ t.map S3Obj.key)) = [] := by
        have hpm : (decide (m.key ∉ t.map S3Obj.key)) = false := by simp [hmk]
        rw [List.filter_cons, hpm]
        simp only [Bool.false_eq_true, if_false]
        exact hfiltt
      rw [hcons] at hpf
      have : underPrefix (delete_old_versions st pfx).2.1 pfx = [] := by
        rw [hup]
        exact List.Perm.eq_nil hpf
      exact dov_empty _ pfx hl1 this
    · have hcons : (m :: t).filter (fun o => decide (o.key ∉ t.map S3Obj.key)) = [m] := by
        have hpm : (decide (m.key ∉ t.map S3Obj.key)) = true := by simp [hmk]
        rw [List.filter_cons, hpm]
        simp only [if_true]
        rw [hfiltt]
      rw [hcons] at hpf
      have : underPrefix (delete_old_versions st pfx).2.1 pfx = [m] := by
        rw [hup]
        exact List.perm_singleton.mp hpf
      exact dov_singleton _ pfx m hl1 this

/-- The deletion loop returns 0 as soon as some queued key raises. -/
theorem dovLoop_fail (l : List S3Obj) (st : S3) (n : Nat) (tr : List Ev)
    (h : ∃ o ∈ l, o.key ∈ st.deleteFails) :
    (dovLoop l st n tr).1 = 0 := by
  induction l generalizing st n tr with
  | nil => simp at h
  | cons o rest ih =>
    by_cases hk : o.key ∈ st.deleteFails
    · simp [dovLoop, delObj, hk]
    · obtain ⟨x, hx, hxk⟩ := h
      rcases List.mem_cons.mp hx with rfl | hxrest
      · exact absurd hxk hk
      · simp only [dovLoop, delObj, if_neg hk]
        exact ih { st with objects := st.objects.filter (fun y => y.key ≠ o.key) }
          (n + 1) (tr ++ [Ev.del o.key]) ⟨x, hxrest, hxk⟩

theorem retention_tie_counterexample :
    (delete_old_versions exTieStore "p/").1 = 1 ∧
    (underPrefix exTieStore "p/").filter (fun o => o.lastModified ≠ 5) = [] ∧
    (underPrefix exTieStore "p/").length = 2 ∧
    (delete_old_versions exTieStore "p/").2.2 = [Ev.del "p/b"] ∧
    (underPrefix (delete_old_versions exTieStore "p/").2.1 "p/").map S3Obj.key = ["p/a"] := by
  decide

theorem retention_correct_witness :
    underPrefix exDistinctStore "p/" ≠ [] ∧
    (∃ m, m ∈ underPrefix exDistinctStore "p/" ∧
      (∀ x ∈ underPrefix exDistinctStore "p/", x.lastModified ≤ m.lastModified) ∧
      (delete_old_versions exDistinctStore "p/").1 =
        (underPrefix exDistinctStore "p/").length - 1 ∧
      underPrefix (delete_old_versions exDistinctStore "p/").2.1 "p/" = [m] ∧
      List.Perm (delete_old_versions exDistinctStore "p/").2.2
        (((underPrefix exDistinctStore "p/").filter
          (fun x => x.lastModified ≠ m.lastModified)).map (fun o => Ev.del o.key))) :=
  ⟨by decide,
   (retention_correct exDistinctStore "p/" (by decide) (by decide) (by decide)
     (by decide)).2 (by decide)⟩

theorem reprune_noop_witness :
    underPrefix exDistinctStore "q/single" = [] ∧
    delete_old_versions
      (delete_old_versions exDistinctStore "p/").2.1 "p/" =
      (0, (delete_old_versions exDistinctStore "p/").2.1, []) :=
  ⟨by decide, (reprune_noop exDistinctStore "p/" (by decide) (by decide)).2⟩

theorem exceptOk_bind {ε α β : Type} (a : α) (f : α → Except ε β) :
    (Except.ok a : Except ε α) >>= f = f a := rfl

/-- If every forecast fetch succeeds, `CITIES.mapM` returns the five
documents. -/
theorem mapM_ok (fF : String → Except String RawCityDoc)
    (hok : ∀ c ∈ CITIES, ∃ d, fF c = .ok d) :
    ∃ ds, CITIES.mapM fF = .ok ds := by
  obtain ⟨d1, h1⟩ := hok "Perth" (by simp [CITIES])
  obtain ⟨d2, h2⟩ := hok "Melbourne" (by simp [CITIES])
  obtain ⟨d3, h3⟩ := hok "Sydney" (by simp [CITIES])
  obtain ⟨d4, h4⟩ := hok "Brisbane" (by simp [CITIES])
  obtain ⟨d5, h5⟩ := hok "Adelaide" (by simp [CITIES])
  exact ⟨[d1, d2, d3, d4, d5], by
    simp [CITIES, List.mapM, List.mapM.loop, h1, h2, h3, h4, h5, exceptOk_bind]⟩

theorem ingestion_ok_of_fetch_ok (fF : String → Except String RawCityDoc)
    (fA : String → Except String (Option String × Option AlertsField))
    (today : String) (tss : List String) (st : S3)
    (hok : ∀ c ∈ CITIES, ∃ d, fF c = .ok d) :
    ((ingestion_handler fF fA today tss st).1).statusCode = 200 := by
  obtain ⟨ds, hds⟩ := mapM_ok fF hok
  simp only [ingestion_handler, hds, IngResp.statusCode]

theorem exceptErr_bind {ε α β : Type} (e : ε) (f : α → Except ε β) :
    (Except.error e : Except ε α) >>= f = .error e := rfl

/-- The worker loop of `List.mapM` fails with the error of some failing city
as soon as one fetch fails. -/
theorem mapMloop_error (f : String → Except String RawCityDoc) (l : List String)
    (h : ∃ c ∈ l, ∃ er, f c = .error er) :
    ∀ acc, ∃ er, List.mapM.loop f l acc = .error er ∧ ∃ c' ∈ l, f c' = .error er := by
  induction l with
  | nil => simp at h
  | cons a as ih =>
    intro acc
    cases ha : f a with
    | error er =>
      refine ⟨er, ?_, ⟨a, by simp, ha⟩⟩
      simp [List.mapM.loop, ha, exceptErr_bind]
    | ok d =>
      have h' : ∃ c ∈ as, ∃ er, f c = .error er := by
        obtain ⟨c, hc, er, hcer⟩ := h
        rcases List.mem_cons.mp hc with rfl | hcas
        · rw [ha] at hcer
          exact absurd hcer (by simp)
        · exact ⟨c, hcas, er, hcer⟩
      obtain ⟨er, her, c', hc', hfc'⟩ := ih h' (d :: acc)
      refine ⟨er, ?_, ⟨c', by simp [hc'], hfc'⟩⟩
      simp [List.mapM.loop, ha, exceptOk_bind, her]

/-- A sequential `mapM` over the cities fails with the error of some failing
city as soon as one fetch fails. -/
theorem mapM_error_general (l : List String) (f : String → Except String RawCityDoc)
    (h : ∃ c ∈ l, ∃ er, f c = .error er) :
    ∃ er, l.mapM f = .error er ∧ ∃ c' ∈ l, f c' = .error er :=
  mapMloop_error f l h []

/-! ## C5 — missing-input envelope of the forecast pipeline -/

/-- C5: when the listing of `to_be_processed/forecast/{today}/` is empty (and
that listing itself does not raise), the forecast handler returns the 404
envelope, the store is unchanged, and the effect trace is empty — no
`put_object` and no `delete_object` happened. -/
theorem missing_input_envelope (today ts nowIso : String) (st : S3)
    (hl : ("to_be_processed/forecast/" ++ today ++ "/") ∉ st.listFails)
    (hemp : underPrefix st ("to_be_processed/forecast/" ++ today ++ "/") = []) :
    forecast_handler today ts nowIso st =
      (.notFound ("No forecast files found for date " ++ today), st, []) := by
  simp [forecast_handler, listPrefix, hl, hemp]

/-- Witness for C5: the empty store has no forecast input for the day; the
handler answers 404 and the trace is empty. -/
theorem missing_input_envelope_witness :
    ("to_be_processed/forecast/2025-01-01/" ∉ emptyStore.listFails) ∧
    underPrefix emptyStore "to_be_processed/forecast/2025-01-01/" = [] ∧
    forecast_handler "2025-01-01" "20250101_000001" "NOW" emptyStore =
      (.notFound ("No forecast files found for date " ++ "2025-01-01"), emptyStore, []) :=
  ⟨by decide, by decide,
   missing_input_envelope "2025-01-01" "20250101_000001" "NOW" emptyStore
     (by decide) (by decide)⟩

/-! ## C6 — alerts are best-effort, forecasts are fatal -/

/-- C6: in the ingestion pipeline, if fetching the alerts of one configured
city raises while every forecast fetch succeeds, that city's entry in the
alert list is the `\x7b'city', 'error'\x7d` placeholder carrying the city name and
the error text, and the run still ends in a 200 envelope; whereas if
fetching some city's forecast raises, the run aborts with a 500 envelope
carrying the error text of a failing city, the store untouched and nothing
written. -/
theorem alert_best_effort_forecast_fatal :
    (∀ (fF : String → Except String RawCityDoc)
       (fA : String → Except String (Option String × Option AlertsField))
       (today : String) (tss : List String) (st : S3) (city e : String),
       city ∈ CITIES →
       (∀ c ∈ CITIES, ∃ d, fF c = .ok d) →
       fA city = .error e →
       ((ingestion_handler fF fA today tss st).1).statusCode = 200 ∧
       IngAlertItem.failed city e ∈ ingAlertData fA) ∧
    (∀ (fF : String → Except String RawCityDoc)
       (fA : String → Except String (Option String × Option AlertsField))
       (today : String) (tss : List String) (st : S3) (city e : String),
       city ∈ CITIES →
       fF city = .error e →
       ∃ er, (ingestion_handler fF fA today tss st) = (.err er, st, []) ∧
         ∃ c' ∈ CITIES, fF c' = .error er) := by
  constructor
  · intro fF fA today tss st city e hcity hok hae
    refine ⟨ingestion_ok_of_fetch_ok fF fA today tss st hok, ?_⟩
    refine List.mem_map.mpr ⟨city, hcity, ?_⟩
    simp [hae]
  · intro fF fA today tss st city e hcity hfe
    obtain ⟨er, her, hc'⟩ := mapM_error_general CITIES fF ⟨city, hcity, e, hfe⟩
    exact ⟨er, by simp only [ingestion_handler, her], hc'⟩

/-- Witness for C6: with alerts down for Sydney only, the run is a 200 and
Sydney's entry is the placeholder; with forecasts down for Melbourne, the
run is the 500 envelope carrying that error, with no writes. -/
theorem alert_best_effort_forecast_fatal_witness :
    (((ingestion_handler exFetchF exFetchASydneyDown "2025-01-01"
        ["t", "t", "t", "t"] emptyStore).1).statusCode = 200 ∧
      IngAlertItem.failed "Sydney" "timeout" ∈ ingAlertData exFetchASydneyDown) ∧
    (∃ er, (ingestion_handler exFetchFMelbourneDown exFetchA "2025-01-01"
        ["t", "t", "t", "t"] emptyStore) = (.err er, emptyStore, []) ∧
      ∃ c' ∈ CITIES, exFetchFMelbourneDown c' = .error er) :=
  ⟨alert_best_effort_forecast_fatal.1 exFetchF exFetchASydneyDown "2025-01-01"
      ["t", "t", "t", "t"] emptyStore "Sydney" "timeout" (by decide)
      (fun c _ => ⟨docNamed c, rfl⟩) rfl,
   alert_best_effort_forecast_fatal.2 exFetchFMelbourneDown exFetchA "2025-01-01"
      ["t", "t", "t", "t"] emptyStore "Melbourne" "connection reset" (by decide)
      rfl⟩

/-! ## C7 — retention failure containment -/

/-- C7: an exception while listing makes `delete_old_versions` return 0 with
nothing changed; an exception while deleting makes it return 0 (deletions
already performed staying done); and the calling pipeline is never aborted
by either — the ingestion handler still answers 200 whatever faults the
store injects into its three prune calls, as long as the fetches succeed. -/
theorem retention_failure_contained :
    (∀ (st : S3) (pfx : String), pfx ∈ st.listFails →
       delete_old_versions st pfx = (0, st, [])) ∧
    (∀ (st : S3) (pfx : String), pfx ∉ st.listFails →
       (∃ o ∈ (sortDescLM (List.insertionSort
          (fun a b : S3Obj => charListLE a.key.data b.key.data = true)
          (underPrefix st pfx))).tail, o.key ∈ st.deleteFails) →
       (delete_old_versions st pfx).1 = 0) ∧
    (∀ (fF : String → Except String RawCityDoc)
       (fA : String → Except String (Option String × Option AlertsField))
       (today : String) (tss : List String) (st : S3),
       (∀ c ∈ CITIES, ∃ d, fF c = .ok d) →
       ((ingestion_handler fF fA today tss st).1).statusCode = 200) := by
  refine ⟨?_, ?_, fun fF fA today tss st hok => ingestion_ok_of_fetch_ok fF fA today tss st hok⟩
  · intro st pfx hin
    simp [delete_old_versions, listPrefix, hin]
  · intro st pfx hl hex
    by_cases hemp : (List.insertionSort
        (fun a b : S3Obj => charListLE a.key.data b.key.data = true)
        (underPrefix st pfx)).isEmpty
    · rw [List.isEmpty_iff] at hemp
      rw [hemp] at hex
      simp [sortDescLM, List.insertionSort] at hex
    · simp only [delete_old_versions, listPrefix, if_neg hl, hemp, Bool.false_eq_true,
        if_false, if_true]
      exact dovLoop_fail _ st 0 [] hex

/-- Witness for C7: a listing fault on `p/` yields `(0, store, [])`; a
deletion fault on the queued `p/a` yields a 0 count; and an ingestion run
against a store that fails every prune still returns 200. -/
theorem retention_failure_contained_witness :
    delete_old_versions exListFailStore "p/" = (0, exListFailStore, []) ∧
    (delete_old_versions exDelFailStore "p/").1 = 0 ∧
    ((ingestion_handler exFetchF exFetchA "2025-01-01" ["t", "t", "t", "t"]
       { emptyStore with
         listFails := ["to_be_processed/forecast/2025-01-01/",
                       "to_be_processed/alert/2025-01-01/",
                       "processed/current_weather/2025-01-01/"] }).1).statusCode = 200 :=
  ⟨retention_failure_contained.1 exListFailStore "p/" (by decide),
   retention_failure_contained.2.1 exDelFailStore "p/" (by decide) (by decide),
   retention_failure_contained.2.2 exFetchF exFetchA "2025-01-01" ["t", "t", "t", "t"]
     { emptyStore with
       listFails := ["to_be_processed/forecast/2025-01-01/",
                     "to_be_processed/alert/2025-01-01/",
                     "processed/current_weather/2025-01-01/"] }
     (fun c _ => ⟨docNamed c, rfl⟩)⟩

/-! ## C9 — run timestamps in output filenames -/

theorem dovLoop_put_mem (k : String) (l : List S3Obj) (st : S3) (n : Nat) (tr : List Ev)
    (h : Ev.put k ∈ (dovLoop l st n tr).2.2) : Ev.put k ∈ tr := by
  induction l generalizing st n tr with
  | nil => exact h
  | cons o rest ih =>
    simp only [dovLoop] at h
    cases hdel : delObj st o.key with
    | error e =>
      rw [hdel] at h
      exact h
    | ok st' =>
      rw [hdel] at h
      have := ih st' (n + 1) (tr ++ [Ev.del o.key]) h
      rcases List.mem_append.mp this with hmem | hmem
      · exact hmem
      · simp at hmem

/-- The Retention Manager never performs a put. -/
theorem dov_no_puts (st : S3) (pfx : String) (k : String) :
    Ev.put k ∉ (delete_old_versions st pfx).2.2 := by
  intro h
  unfold delete_old_versions at h
  cases hl : listPrefix st pfx with
  | error e =>
    rw [hl] at h
    simp at h
  | ok objs =>
    rw [hl] at h
    by_cases he : objs.isEmpty
    · simp [he] at h
    · simp only [he, Bool.false_eq_true, if_false, if_true] at h
      exact absurd (dovLoop_put_mem k _ st 0 [] h) (by simp)

theorem embeds_save_key (pfx ft ts : String) :
    embedsTs (pfx ++ ft ++ "_data_" ++ ts ++ "." ++ ft) ts := by
  refine ⟨pfx.data ++ ft.data ++ ("_data" : String).data, ft.data, ?_⟩
  have h1 : ("_data_" : String).data = ("_data" : String).data ++ ['_'] := rfl
  simp [String.data_append, h1, List.append_assoc]

theorem embeds_fc_json (pfx ts : String) :
    embedsTs (pfx ++ "forecast_" ++ ts ++ ".json") ts := by
  refine ⟨pfx.data ++ ("forecast" : String).data, ("json" : String).data, ?_⟩
  have h1 : ("forecast_" : String).data = ("forecast" : String).data ++ ['_'] := rfl
  have h2 : (".json" : String).data = '.' :: ("json" : String).data := rfl
  simp [String.data_append, h1, h2, List.append_assoc]

theorem embeds_fc_csv (pfx ts : String) :
    embedsTs (pfx ++ "forecast_" ++ ts ++ ".csv") ts := by
  refine ⟨pfx.data ++ ("forecast" : String).data, ("csv" : String).data, ?_⟩
  have h1 : ("forecast_" : String).data = ("forecast" : String).data ++ ['_'] := rfl
  have h2 : (".csv" : String).data = '.' :: ("csv" : String).data := rfl
  simp [String.data_append, h1, h2, List.append_assoc]

theorem embeds_loc_csv (pfx ts : String) :
    embedsTs (pfx ++ "location_" ++ ts ++ ".csv") ts := by
  refine ⟨pfx.data ++ ("location" : String).data, ("csv" : String).data, ?_⟩
  have h1 : ("location_" : String).data = ("location" : String).data ++ ['_'] := rfl
  have h2 : (".csv" : String).data = '.' :: ("csv" : String).data := rfl
  simp [String.data_append, h1, h2, List.append_assoc]

theorem fcCityStep_puts (today ts nowIso : String) (acc : FcAcc) (city : String)
    (d : RawCityDoc) (acc' : FcAcc)
    (h : fcCityStep today ts nowIso acc city d = .ok acc')
    (k : String) (hk : Ev.put k ∈ acc'.tr) :
    Ev.put k ∈ acc.tr ∨ embedsTs k ts := by
  unfold fcCityStep at h
  cases hp : process_city_forecast nowIso city d with
  | error e =>
    rw [hp] at h
    exact absurd h (by simp)
  | ok pd =>
    rw [hp] at h
    have hacc := (Except.ok.inj h).symm
    rw [hacc] at hk
    rcases List.mem_append.mp hk with hk' | hdov
    · rcases List.mem_append.mp hk' with ha | hmid
      · exact Or.inl ha
      · right
        simp only [List.mem_cons, List.not_mem_nil, or_false, Ev.put.injEq] at hmid
        rcases hmid with hmid | hmid | hmid
        · rw [hmid]
          exact embeds_fc_json _ ts
        · rw [hmid]
          exact embeds_loc_csv _ ts
        · rw [hmid]
          exact embeds_fc_csv _ ts
    · exact absurd hdov (dov_no_puts _ _ k)

theorem fcLoop_puts (today ts nowIso : String) (l : List (String × RawCityDoc))
    (acc : FcAcc) (k : String)
    (hk : Ev.put k ∈ (fcLoop today ts nowIso l acc).2.tr) :
    Ev.put k ∈ acc.tr ∨ embedsTs k ts := by
  induction l generalizing acc with
  | nil => exact Or.inl hk
  | cons cd rest ih =>
    obtain ⟨city, d⟩ := cd
    simp only [fcLoop] at hk
    cases hstep : fcCityStep today ts nowIso acc city d with
    | error e =>
      rw [hstep] at hk
      exact Or.inl hk
    | ok acc' =>
      rw [hstep] at hk
      rcases ih acc' hk with hin | hemb
      · exact fcCityStep_puts today ts nowIso acc city d acc' hstep k hin
      · exact Or.inr hemb

theorem fcMain_puts (today ts nowIso : String) (st : S3)
    (forecast_data : List (String × RawCityDoc)) (k : String)
    (hk : Ev.put k ∈ (fcMain today ts nowIso st forecast_data).2.2) :
    embedsTs k ts := by
  unfold fcMain at hk
  cases hloop : fcLoop today ts nowIso forecast_data
      { st := st, tr := [], cities := [], files := 0 } with
  | mk oe acc =>
    have hacc : Ev.put k ∈ acc.tr → embedsTs k ts := by
      intro hin
      have := fcLoop_puts today ts nowIso forecast_data
        { st := st, tr := [], cities := [], files := 0 } k (by rw [hloop]; exact hin)
      rcases this with habs | hemb
      · exact absurd habs (by simp)
      · exact hemb
    rw [hloop] at hk
    cases oe with
    | some e => exact hacc hk
    | none =>
      rcases List.mem_append.mp hk with hin | hdov
      · exact hacc hin
      · exact absurd hdov (dov_no_puts _ _ k)

theorem forecast_handler_puts (today ts nowIso : String) (st : S3) (k : String)
    (hk : Ev.put k ∈ (forecast_handler today ts nowIso st).2.2) :
    embedsTs k ts := by
  simp only [forecast_handler] at hk
  cases hl : listPrefix st ("to_be_processed/forecast/" ++ today ++ "/") with
  | error e =>
    rw [hl] at hk
    simp at hk
  | ok files =>
    rw [hl] at hk
    by_cases he : files.isEmpty
    · simp [he] at hk
    · simp only [he, Bool.false_eq_true, if_false] at hk
      cases hm : pyMaxLM files with
      | none =>
        rw [hm] at hk
        simp at hk
      | some latest =>
        rw [hm] at hk
        replace hk : Ev.put k ∈
            (match getObj st latest.key with
              | Except.error e => (FcResp.err e, st, ([] : List Ev))
              | Except.ok (Content.jsonList docs) =>
                fcMain today ts nowIso st
                  (dictOfPairs (docs.map (fun d => (get_city_name d, d))))
              | Except.ok (Content.jsonDict entries) =>
                fcMain today ts nowIso st
                  (dictOfPairs (entries.map
                    (fun kv : String × RawCityDoc => (get_city_name kv.2, kv.2))))
              | Except.ok _ => (FcResp.err "Unexpected forecast data format", st, [])).2.2 := hk
        cases hg : getObj st latest.key with
        | error e =>
          rw [hg] at hk
          simp at hk
        | ok content =>
          rw [hg] at hk
          cases content with
          | jsonList docs => exact fcMain_puts today ts nowIso st _ k hk
          | jsonDict entries => exact fcMain_puts today ts nowIso st _ k hk
          | ingAlerts items => simp at hk
          | cwList records => simp at hk
          | processedFc doc => simp at hk
          | text body => simp at hk

theorem ingestion_handler_puts_const (fF : String → Except String RawCityDoc)
    (fA : String → Except String (Option String × Option AlertsField))
    (today t : String) (st : S3) (k : String)
    (hk : Ev.put k ∈ (ingestion_handler fF fA today [t, t, t, t] st).2.2) :
    embedsTs k t := by
  unfold ingestion_handler at hk
  cases hm : CITIES.mapM fF with
  | error e =>
    rw [hm] at hk
    simp at hk
  | ok ds =>
    rw [hm] at hk
    simp only [save_to_s3, List.getD] at hk
    rcases List.mem_append.mp hk with hk1 | hdov3
    rotate_left
    · exact absurd hdov3 (dov_no_puts _ _ k)
    rcases List.mem_append.mp hk1 with hk2 | hdov2
    rotate_left
    · exact absurd hdov2 (dov_no_puts _ _ k)
    rcases List.mem_append.mp hk2 with hk3 | hdov1
    rotate_left
    · exact absurd hdov1 (dov_no_puts _ _ k)
    simp only [List.mem_append, List.mem_singleton, Ev.put.injEq] at hk3
    rcases hk3 with ((hkey | hkey) | hkey) | hkey <;>
      · rw [hkey]
        exact embeds_save_key _ _ t

theorem shared_timestamp_counterexample :
    (exTickingRun.1).statusCode = 200 ∧
    putKeys exTickingRun.2.2 =
      ["to_be_processed/forecast/2025-01-01/json_data_20250101_000001.json",
       "to_be_processed/alert/2025-01-01/json_data_20250101_000002.json",
       "processed/current_weather/2025-01-01/json_data_20250101_000003.json",
       "processed/current_weather/2025-01-01/csv_data_20250101_000004.csv"] ∧
    tsComponent ((putKeys exTickingRun.2.2).getD 0 "") = "20250101_000001" ∧
    tsComponent ((putKeys exTickingRun.2.2).getD 1 "") = "20250101_000002" ∧
    tsComponent ((putKeys exTickingRun.2.2).getD 0 "") ≠
      tsComponent ((putKeys exTickingRun.2.2).getD 1 "") := by
  decide

theorem shared_run_timestamp :
    (∀ (today ts nowIso : String) (st : S3) (k : String),
       Ev.put k ∈ (forecast_handler today ts nowIso st).2.2 → embedsTs k ts) ∧
    (∀ (fF : String → Except String RawCityDoc)
       (fA : String → Except String (Option String × Option AlertsField))
       (today t : String) (st : S3) (k : String),
       Ev.put k ∈ (ingestion_handler fF fA today [t, t, t, t] st).2.2 → embedsTs k t) :=
  ⟨forecast_handler_puts, ingestion_handler_puts_const⟩

theorem shared_run_timestamp_witness :
    (Ev.put "processed/perth_forecast/2025-01-01/forecast_T.json" ∈
       (forecast_handler "2025-01-01" "T" "NOW" exFcStore).2.2 ∧
     embedsTs "processed/perth_forecast/2025-01-01/forecast_T.json" "T") ∧
    (Ev.put "to_be_processed/forecast/2025-01-01/json_data_20250101_000001.json" ∈
       exConstRun.2.2 ∧
     embedsTs "to_be_processed/forecast/2025-01-01/json_data_20250101_000001.json"
       "20250101_000001") :=
  ⟨⟨by decide, shared_run_timestamp.1 "2025-01-01" "T" "NOW" exFcStore _ (by decide)⟩,
   ⟨by decide, shared_run_timestamp.2 exFetchF exFetchA "2025-01-01" "20250101_000001"
      emptyStore _ (by decide)⟩⟩

/-! ## C8 — the JSON round trip of the hourly-temperature cell -/

theorem parseStr_encode (cs rest : List Char) :
    parseStr ((cs.map escChar).flatten ++ '"' :: rest) = some (cs, rest) := by
  induction cs with
  | nil =>
    simp only [List.map_nil, List.flatten_nil, List.nil_append]
    rw [parseStr.eq_def]
    simp
  | cons c cs ih =>
    by_cases hc : c = '"' ∨ c = '\\'
    · have hesc : escChar c = ['\\', c] := by simp [escChar, hc]
      simp only [List.map_cons, List.flatten_cons, hesc, List.cons_append,
        List.append_assoc]
      rw [parseStr.eq_def]
      simp [hc, ih]
    · have hesc : escChar c = [c] := by simp [escChar, hc]
      push_neg at hc
      simp only [List.map_cons, List.flatten_cons, hesc, List.singleton_append]
      rw [parseStr.eq_def]
      simp [hc.1, hc.2, ih]

theorem digitChar_spec (r : Nat) (h : r < 10) :
    (Char.ofNat (48 + r)).isDigit = true ∧ (Char.ofNat (48 + r)).toNat - 48 = r := by
  interval_cases r <;> exact ⟨by decide, by decide⟩

theorem renderNatAux_digits (fuel : Nat) :
    ∀ n, ∀ c ∈ renderNatAux fuel n, c.isDigit = true := by
  induction fuel with
  | zero => intro n c hc; simp [renderNatAux] at hc
  | succ fuel ih =>
    intro n c hc
    by_cases hn : n = 0
    · simp [renderNatAux, hn] at hc
    · rw [renderNatAux, if_neg hn] at hc
      rcases List.mem_append.mp hc with hA | hd
      · exact ih (n / 10) c hA
      · rw [List.mem_singleton.mp hd]
        exact (digitChar_spec (n % 10) (Nat.mod_lt n (by omega))).1

theorem renderNatAux_ne_nil (fuel n : Nat) (h1 : 0 < n) (h2 : n ≤ fuel) :
    renderNatAux fuel n ≠ [] := by
  cases fuel with
  | zero => omega
  | succ fuel =>
    rw [renderNatAux, if_neg (by omega)]
    simp

theorem parseDigits_append (ds : List Char) (rest : List Char)
    (hds : ∀ c ∈ ds, c.isDigit = true) (acc : Nat) :
    parseDigits (ds ++ rest) acc =
      parseDigits rest (ds.foldl (fun a c => a * 10 + (c.toNat - 48)) acc) := by
  induction ds generalizing acc with
  | nil => simp
  | cons d ds ih =>
    have hd : d.isDigit = true := hds d (by simp)
    rw [List.cons_append, parseDigits, if_pos hd, List.foldl_cons]
    exact ih (fun c hc => hds c (by simp [hc])) _

theorem parseDigits_stop (rest : List Char) (h : noDigitHead rest) (acc : Nat) :
    parseDigits rest acc = (acc, rest) := by
  cases rest with
  | nil => simp [parseDigits]
  | cons c cs =>
    rw [parseDigits]
    rw [noDigitHead] at h
    simp [h]

theorem foldl_renderNatAux (fuel : Nat) :
    ∀ n acc, n ≤ fuel →
      (renderNatAux fuel n).foldl (fun a c => a * 10 + (c.toNat - 48)) acc =
        acc * 10 ^ (renderNatAux fuel n).length + n := by
  induction fuel with
  | zero =>
    intro n acc h
    have : n = 0 := by omega
    simp [renderNatAux, this]
  | succ fuel ih =>
    intro n acc h
    by_cases hn : n = 0
    · simp [renderNatAux, hn]
    · rw [renderNatAux, if_neg hn]
      rw [List.foldl_append]
      have hdiv : n / 10 ≤ fuel := by
        have := Nat.div_lt_self (by omega : 0 < n) (by omega : 1 < 10)
        omega
      rw [ih (n / 10) acc hdiv]
      simp only [List.foldl_cons, List.foldl_nil, List.length_append,
        List.length_singleton]
      rw [(digitChar_spec (n % 10) (Nat.mod_lt n (by omega))).2]
      have hmod := Nat.div_add_mod n 10
      rw [pow_succ]
      ring_nf
      omega

theorem renderNatChars_digits (n : Nat) : ∀ c ∈ renderNatChars n, c.isDigit = true := by
  intro c hc
  by_cases hn : n = 0
  · simp [renderNatChars, hn] at hc
    rw [hc]
    decide
  · rw [renderNatChars, if_neg hn] at hc
    exact renderNatAux_digits n n c hc

theorem renderNatChars_ne_nil (n : Nat) : renderNatChars n ≠ [] := by
  by_cases hn : n = 0
  · simp [renderNatChars, hn]
  · rw [renderNatChars, if_neg hn]
    exact renderNatAux_ne_nil n n (by omega) (le_refl n)

theorem parseDigits_renderNat (n : Nat) (rest : List Char) (h : noDigitHead rest) :
    parseDigits (renderNatChars n ++ rest) 0 = (n, rest) := by
  by_cases hn : n = 0
  · subst hn
    rw [renderNatChars]
    simp only [if_pos rfl, List.singleton_append]
    rw [parseDigits.eq_def]
    simp only [List.singleton_append, show ('0' : Char).isDigit = true from by decide, if_true]
    rw [parseDigits_stop rest h,
      show (0 : Nat) * 10 + ('0'.toNat - 48) = 0 from by decide]
  · rw [renderNatChars, if_neg hn]
    rw [parseDigits_append _ rest (renderNatAux_digits n n) 0]
    rw [parseDigits_stop rest h]
    rw [foldl_renderNatAux n n 0 (le_refl n)]
    simp

theorem parseIntChars_render (i : Int) (rest : List Char) (h : noDigitHead rest) :
    parseIntChars (renderIntChars i ++ rest) = some (i, rest) := by
  by_cases hi : i < 0
  · rw [renderIntChars, if_pos hi, List.cons_append]
    rw [parseIntChars.eq_def]
    simp only [List.cons_append, if_pos rfl]
    obtain ⟨c, ds, hcds⟩ : ∃ c ds, renderNatChars i.natAbs = c :: ds := by
      cases hr : renderNatChars i.natAbs with
      | nil => exact absurd hr (renderNatChars_ne_nil _)
      | cons c ds => exact ⟨c, ds, rfl⟩
    rw [hcds, List.cons_append]
    have hdig : c.isDigit = true := by
      have := renderNatChars_digits i.natAbs c (by rw [hcds]; simp)
      exact this
    simp only [hdig, if_pos rfl, if_true]
    have hpd : parseDigits (c :: (ds ++ rest)) 0 = (i.natAbs, rest) := by
      rw [← List.cons_append, ← hcds]
      exact parseDigits_renderNat i.natAbs rest h
    rw [hpd]
    simp only [Option.some.injEq, Prod.mk.injEq]
    refine ⟨by omega, trivial⟩
  · rw [renderIntChars, if_neg hi]
    obtain ⟨c, ds, hcds⟩ : ∃ c ds, renderNatChars i.toNat = c :: ds := by
      cases hr : renderNatChars i.toNat with
      | nil => exact absurd hr (renderNatChars_ne_nil _)
      | cons c ds => exact ⟨c, ds, rfl⟩
    rw [hcds, List.cons_append, parseIntChars.eq_def]
    simp only [List.cons_append]
    have hdig : c.isDigit = true :=
      renderNatChars_digits i.toNat c (by rw [hcds]; simp)
    have hnotdash : ¬(c = '-') := by
      intro hdash
      rw [hdash] at hdig
      exact absurd hdig (by decide)
    rw [if_neg hnotdash, if_pos hdig]
    have hpd : parseDigits (c :: (ds ++ rest)) 0 = (i.toNat, rest) := by
      rw [← List.cons_append, ← hcds]
      exact parseDigits_renderNat i.toNat rest h
    rw [hpd]
    simp only [Option.some.injEq, Prod.mk.injEq]
    refine ⟨by omega, trivial⟩

theorem renderPairChars_pos (kv : String × Int) : 0 < (renderPairChars kv).length := by
  obtain ⟨ks, v⟩ := kv
  simp [renderPairChars, encodeKeyChars]

theorem renderBody_pos (m : List (String × Int)) : 0 < (renderBody m).length := by
  cases m with
  | nil => simp [renderBody]
  | cons kv t =>
    cases t with
    | nil =>
      simp only [renderBody, List.length_append]
      have := renderPairChars_pos kv
      omega
    | cons kv2 t' =>
      simp only [renderBody, List.length_append, List.length_cons]
      omega

theorem parsePairsF_step (kv : String × Int) (tail : List Char) (fuel : Nat)
    (htail : noDigitHead tail) :
    parsePairsF (fuel + 1) (renderPairChars kv ++ tail) =
      pairsTailCase kv fuel tail := by
  obtain ⟨ks, v⟩ := kv
  cases ks with
  | mk ksd => ?_
  simp only [renderPairChars, encodeKeyChars, List.cons_append, List.append_assoc,
    List.nil_append]
  rw [parsePairsF.eq_def]
  simp only []
  rw [parseStr_encode ksd (':' :: ' ' :: (renderIntChars v ++ tail))]
  simp only []
  rw [parseIntChars_render v tail htail]
  rfl

theorem parsePairsF_render (m : List (String × Int)) (hne : m ≠ []) :
    ∀ fuel, (renderBody m).length ≤ fuel → parsePairsF fuel (renderBody m) = some m := by
  induction m with
  | nil => exact absurd rfl hne
  | cons kv m' ih =>
    intro fuel hfuel
    cases m' with
    | nil =>
      cases fuel with
      | zero =>
        exfalso
        have := renderBody_pos [kv]
        omega
      | succ f =>
        rw [show renderBody [kv] = renderPairChars kv ++ ['\x7d'] from rfl]
        rw [parsePairsF_step kv ['\x7d'] f
          (show ('\x7d' : Char).isDigit = false from by decide)]
        rfl
    | cons kv2 m'' =>
      cases fuel with
      | zero =>
        exfalso
        have := renderBody_pos (kv :: kv2 :: m'')
        omega
      | succ f =>
        have hfuel' : (renderPairChars kv ++
            (',' :: ' ' :: renderBody (kv2 :: m''))).length ≤ f + 1 := hfuel
        have hP := renderPairChars_pos kv
        have hlen : (renderBody (kv2 :: m'')).length ≤ f := by
          simp only [List.length_append, List.length_cons] at hfuel'
          omega
        rw [show renderBody (kv :: kv2 :: m'') =
          renderPairChars kv ++ (',' :: ' ' :: renderBody (kv2 :: m'')) from rfl]
        rw [parsePairsF_step kv (',' :: ' ' :: renderBody (kv2 :: m'')) f
          (show (',' : Char).isDigit = false from by decide)]
        rw [show pairsTailCase kv f (',' :: ' ' :: renderBody (kv2 :: m'')) =
          (match parsePairsF f (renderBody (kv2 :: m'')) with
           | some l => some (kv :: l)
           | none => none) from rfl]
        rw [ih (by simp) f hlen]

theorem renderBody_head (kv : String × Int) (m' : List (String × Int)) :
    ∃ tl, renderBody (kv :: m') = '"' :: tl := by
  obtain ⟨ks, v⟩ := kv
  cases ks with
  | mk ksd =>
    cases m' with
    | nil => exact ⟨_, rfl⟩
    | cons kv2 m'' => exact ⟨_, rfl⟩

/-- `json.loads` inverts `json.dumps` on the hourly-temperature mapping. -/
theorem parseJsonMap_dumps (m : List (String × Int)) :
    parseJsonMap (jsonDumpsMap m) = some m := by
  cases m with
  | nil => rfl
  | cons kv m' =>
    obtain ⟨tl, htl⟩ := renderBody_head kv m'
    have hdata : (jsonDumpsMap (kv :: m')).data = '\x7b' :: renderBody (kv :: m') := rfl
    rw [parseJsonMap, hdata, htl]
    show parsePairsF ('"' :: tl).length ('"' :: tl) = some (kv :: m')
    rw [← htl]
    exact parsePairsF_render (kv :: m') (by simp) _ (le_refl _)

/-- C8: for a processed document produced by `process_city_forecast`, the
forecast CSV consists of exactly one header row followed by one data row per
forecast-day, in document order; each data row's last cell is the
`json.dumps` of that day's hourly-temperature mapping, and JSON-decoding it
yields exactly the mapping the reshaper produced. -/
theorem csv_round_trip (nowIso city_name : String) (raw : RawCityDoc)
    (doc : ProcessedForecast)
    (hp : process_city_forecast nowIso city_name raw = .ok doc) :
    forecastRows doc = forecastHeader :: doc.forecast_days.map forecastRow ∧
    (forecastRows doc).length = doc.forecast_days.length + 1 ∧
    (convert_to_csv doc).forecast = csvRender (forecastRows doc) ∧
    ∀ day ∈ doc.forecast_days,
      (forecastRow day).getLast? = some (jsonDumpsMap day.hourly_temperatures) ∧
      parseJsonMap (jsonDumpsMap day.hourly_temperatures) =
        some day.hourly_temperatures :=
  ⟨rfl, by simp [forecastRows], rfl, fun day _ => ⟨rfl, parseJsonMap_dumps _⟩⟩

/-- Witness for C8 at a concrete one-day, two-hour document. -/
theorem csv_round_trip_witness :
    process_city_forecast "NOW" "perth" exRawFc = .ok exDocFc ∧
    (forecastRows exDocFc = forecastHeader :: exDocFc.forecast_days.map forecastRow ∧
     (forecastRows exDocFc).length = exDocFc.forecast_days.length + 1 ∧
     (convert_to_csv exDocFc).forecast = csvRender (forecastRows exDocFc) ∧
     ∀ day ∈ exDocFc.forecast_days,
       (forecastRow day).getLast? = some (jsonDumpsMap day.hourly_temperatures) ∧
       parseJsonMap (jsonDumpsMap day.hourly_temperatures) =
         some day.hourly_temperatures) :=
  ⟨rfl, csv_round_trip "NOW" "perth" exRawFc exDocFc rfl⟩
